import Mathlib

/-!
# Pool orchestrator (`lib/pool.js`)

A shallow embedding of the pool object of `lib/pool.js`: the closure state of
`pool(options, authorizeFn)`, the callbacks it registers on its collaborators
(daemon interface, job manager, stratum server) and the effects it causes.

JavaScript is single threaded: every handler runs to completion before the
next one starts.  The pool is therefore a transition system whose inputs are
the signals raised by the collaborators and whose outputs are the calls the
pool makes on them, recorded in order in a trace.  A callback handed to
`daemon.cmd` is kept as a pending continuation until the daemon answers it.
-/

namespace StratumPool

/-! ## JavaScript values -/

/-- The JavaScript values the pool handles.  Numbers are the integer valued
ones; an object carries its identity `ref` and its own properties. -/
inductive JSVal where
  | undefined : JSVal
  | null : JSVal
  | bool (b : Bool) : JSVal
  | num (n : Int) : JSVal
  | str (s : String) : JSVal
  | arr (elems : List JSVal) : JSVal
  | obj (ref : Nat) (fields : List (String × JSVal)) : JSVal

namespace JSVal

/-- The `ToBoolean` conversion used by `if (v)`, `!v` and `v ? a : b`. -/
def truthy : JSVal → Bool
  | undefined => false
  | null => false
  | bool b => b
  | num n => n != 0
  | str s => s != ""
  | arr _ => true
  | obj _ _ => true

/-- The operator `===`: equal primitives of one type; objects and arrays by
identity (an array never is identical to another value of the model). -/
def strictEq : JSVal → JSVal → Bool
  | undefined, undefined => true
  | null, null => true
  | bool a, bool b => a == b
  | num a, num b => a == b
  | str a, str b => a == b
  | obj r _, obj r' _ => r == r'
  | _, _ => false

/-- Whether the value is `undefined` or `null`. -/
def nullish : JSVal → Bool
  | undefined => true
  | null => true
  | _ => false

end JSVal

/-- An exception thrown by a handler. -/
inductive JSError where
  | typeError (property : String) (base : String) : JSError

/-- The property read `v.k`: a `TypeError` on `undefined` and `null`, the own
property of an object when it has one, `undefined` otherwise. -/
def getProp (v : JSVal) (k : String) : Except JSError JSVal :=
  match v with
  | .undefined => .error (.typeError k "undefined")
  | .null => .error (.typeError k "null")
  | .obj _ fields => .ok ((fields.lookup k).getD .undefined)
  | _ => .ok .undefined

/-- An object literal written in the pool's code; it is handed to the daemon
and never compared. -/
def objLit (fields : List (String × JSVal)) : JSVal := .obj 0 fields

/-! ## Collaborators and configuration -/

/-- The `options` object handed to `pool`.  The port, the refresh interval and
the name are a number, a number and a string; `hasSubmitMethod` is the
capability flag the bootstrap writes. -/
structure Options where
  algorithm : JSVal
  address : JSVal
  reward : JSVal
  daemon : JSVal
  stratumPort : Int
  difficulty : JSVal
  blockRefreshInterval : Int
  name : String
  hasSubmitMethod : JSVal

/-- A block template object of the job manager, as far as the pool reads it:
its `rpcData` and the value `getJobParams()` returns. -/
structure Job where
  rpcData : JSVal
  jobParams : JSVal

/-- Modelled from the spec: the job manager (`lib/jobManager.js`) as the pool
sees it: `currentJob` (absent, that is `undefined`, until a template has been
processed), the nonce-space counter whose `next()` hands out an identifier
and advances, and `extraNonce2Size`. -/
structure JobManager where
  currentJob : Option Job
  extraNonceCounter : Nat
  extraNonce2Size : JSVal

/-- The two encoders of `lib/util.js` the bootstrap calls. -/
structure Util where
  script_to_address : JSVal → JSVal
  script_to_pubkey : JSVal → JSVal

/-- A stratum connection, as far as the handlers read it. -/
structure Client where
  id : Nat
  difficulty : JSVal
  extraNonce1 : JSVal
  remoteAddress : JSVal

/-! ## Effects, continuations, state -/

/-- A call the pool makes on a collaborator or an event it emits. -/
inductive Effect where
  /-- the event `_this.emit('log', level, key, text)` -/
  | log (level : String) (key text : JSVal) : Effect
  /-- the event `_this.emit('share', isValidShare, isValidBlock, shareData)` -/
  | share (isValidShare isValidBlock : Bool) (shareData : JSVal) : Effect
  /-- the call `_this.daemon.cmd(method, params, callback)`; `id` names the callback -/
  | cmd (id : Nat) (method : String) (params : List JSVal) : Effect
  /-- the call `_this.jobManager.processTemplate(result, publicKeyBuffer)` -/
  | processTemplate (rpcData publicKeyBuffer : JSVal) : Effect
  /-- the construction `new stratum.Server` on the given port -/
  | newStratumServer (port : Int) : Effect
  /-- the call `setInterval(fn, pollingInterval)` -/
  | setInterval (ms : Int) : Effect
  /-- the call `_this.stratumServer.broadcastMiningJobs(jobParams)` -/
  | broadcastMiningJobs (jobParams : JSVal) : Effect
  /-- the reply `resultCallback(error, extraNonce, extraNonce2Size)` of a subscription -/
  | subscriptionResult (client : Nat) (error extraNonce extraNonce2Size : JSVal) : Effect
  /-- the call `this.sendAndSetDifficultyIfNew(difficulty)` -/
  | sendAndSetDifficultyIfNew (client : Nat) (difficulty : JSVal) : Effect
  /-- the call `this.sendMiningJob(jobParams)` -/
  | sendMiningJob (client : Nat) (jobParams : JSVal) : Effect
  /-- the call `_this.jobManager.processShare(...)` with its eight arguments -/
  | processShare (args : List JSVal) : Effect
  /-- the reply `resultCallback(error, success)` of a submit -/
  | submitResult (client : Nat) (error success : JSVal) : Effect

/-- The callbacks the pool hands to `daemon.cmd`, with what each closes over. -/
inductive Cont where
  /-- callback of the command issued by `SubmitBlock`; `direct` tells the
  `submitblock` branch from the `getblocktemplate` one -/
  | submitBlockCb (direct : Bool) (shareData : JSVal) (isValidShare : Bool) : Cont
  /-- callback of the `getblock` command of `CheckBlockAccepted` -/
  | checkBlockAcceptedCb (blockHash shareData : JSVal) (isValidShare : Bool) : Cont
  /-- callback of `validateaddress`, task `addressInfo` of the join `join` -/
  | validateAddressCb (join : Nat) : Cont
  /-- callback of the `submitblock` probe, task `submitMethod` of the join -/
  | submitMethodCb (join : Nat) : Cont
  /-- callback of the command of `GetBlockTemplate`; `viaNotify` tells the
  caller `processBlockNotify` from the polling timer -/
  | getBlockTemplateCb (viaNotify : Bool) : Cont

/-- Modelled from the spec: one run of `async.parallel` (the library `async`
is required by the pool and is not part of its sources; the spec calls it a
join with fail-fast semantics) over the tasks `addressInfo` and
`submitMethod`: the `results` object, the number of tasks that completed
without error, and whether the final callback has been replaced by the empty
function, which `async` does once a task reports an error. -/
structure Join where
  addressInfo : JSVal
  submitMethod : JSVal
  completed : Nat
  finished : Bool

/-- The state of one pool object: the `options`, the closure variable
`publicKeyBuffer`, the collaborators as far as the pool observes them, the
callbacks handed to the daemon and not yet answered (the daemon answers a
command at most once), the runs of `async.parallel`, and the trace of effects
in the order they happened. -/
structure Pool where
  options : Options
  publicKeyBuffer : JSVal
  /-- the field `_this.stratumServer`: `none` is `undefined`, `some k` the
  server created after `k` earlier ones -/
  stratumServer : Option Nat
  /-- the intervals installed with `setInterval` -/
  intervals : List Int
  jobManager : JobManager
  /-- the callbacks the daemon has not answered yet -/
  pending : List (Nat × Cont)
  nextId : Nat
  joins : List Join
  trace : List Effect

/-- The signals the pool reacts to.  The handlers that only write a log line
(`started` of the stratum server, `malformedMessage`, `socketError`,
`socketDisconnect` and `unknownStratumMethod` of a connection) are left out. -/
inductive Event where
  /-- the job manager emits `newBlock` -/
  | jobNewBlock (blockTemplate : Job) : Event
  /-- the job manager emits `share` -/
  | jobShare (shareData blockHex : JSVal) : Event
  /-- the job manager changes its `currentJob` -/
  | jobCurrent (job : Option Job) : Event
  | daemonOnline : Event
  | daemonStartFailed : Event
  | daemonError (message : JSVal) : Event
  /-- the daemon answers the command `id` with `(error, result)` -/
  | daemonReply (id : Nat) (error result : JSVal) : Event
  /-- the `i`-th installed interval fires -/
  | timerTick (i : Nat) : Event
  /-- a connection emits `subscription` -/
  | clientSubscription (client : Client) (params : JSVal) : Event
  /-- a connection emits `submit`; `outcome` is what `processShare` returns -/
  | clientSubmit (client : Client) (params outcome : JSVal) : Event
  /-- the application calls `processBlockNotify` -/
  | blockNotify (blockHash : JSVal) : Event

/-! ## The pool's functions -/

/-- The closure `emitLog`. -/
def emitLog (s : Pool) (key text : JSVal) : Pool :=
  { s with trace := s.trace ++ [.log "debug" key text] }

/-- The closure `emitWarningLog`. -/
def emitWarningLog (s : Pool) (key text : JSVal) : Pool :=
  { s with trace := s.trace ++ [.log "warning" key text] }

/-- The closure `emitErrorLog`. -/
def emitErrorLog (s : Pool) (key text : JSVal) : Pool :=
  { s with trace := s.trace ++ [.log "error" key text] }

/-- The call `_this.daemon.cmd(method, params, callback)`: the command goes
out and the callback waits for the daemon's answer. -/
def daemonCmd (s : Pool) (method : String) (params : List JSVal) (callback : Cont) : Pool :=
  { s with
    trace := s.trace ++ [.cmd s.nextId method params]
    pending := s.pending ++ [(s.nextId, callback)]
    nextId := s.nextId + 1 }

/-- The closure `emitShare` of the share handler. -/
def emitShare (s : Pool) (isValidShare isValidBlock : Bool) (shareData : JSVal) : Pool :=
  { s with trace := s.trace ++ [.share isValidShare isValidBlock shareData] }

/-- The function `SubmitBlock(blockHex, callback)`; its one caller passes the
callback that closes over `shareData` and `isValidShare`. -/
def SubmitBlock (s : Pool) (blockHex shareData : JSVal) (isValidShare : Bool) : Pool :=
  if s.options.hasSubmitMethod.truthy then
    daemonCmd s "submitblock" [blockHex] (.submitBlockCb true shareData isValidShare)
  else
    daemonCmd s "getblocktemplate"
      [objLit [("mode", .str "submit"), ("data", blockHex)]]
      (.submitBlockCb false shareData isValidShare)

/-- The function `CheckBlockAccepted(blockHash, callback)`. -/
def CheckBlockAccepted (s : Pool) (blockHash shareData : JSVal) (isValidShare : Bool) : Pool :=
  daemonCmd s "getblock" [blockHash] (.checkBlockAcceptedCb blockHash shareData isValidShare)

/-- The callback of the command of `SubmitBlock`: it logs, then calls
`callback()`, which reads `shareData.solution` and calls `CheckBlockAccepted`. -/
def submitBlockCb (s : Pool) (direct : Bool) (shareData : JSVal) (isValidShare : Bool)
    (error _result : JSVal) : Except JSError Pool :=
  let s1 :=
    if direct then
      if error.truthy then
        emitErrorLog s (.str "submitblock") (.str "rpc error when submitting block with submitblock")
      else
        emitLog s (.str "submitblock") (.str "Submitted Block using submitblock")
    else
      if error.truthy then
        emitErrorLog s (.str "submitblock") (.str "rpc error when submitting block with getblocktemplate")
      else
        emitLog s (.str "submitblock") (.str "Submitted Block using getblocktemplate")
  match getProp shareData "solution" with
  | .error e => .error e
  | .ok solution => .ok (CheckBlockAccepted s1 solution shareData isValidShare)

/-- The callback of the `getblock` command: `callback(isAccepted)` sets
`isValidBlock` and emits the share. -/
def checkBlockAcceptedCb (s : Pool) (blockHash shareData : JSVal) (isValidShare : Bool)
    (error result : JSVal) : Except JSError Pool :=
  if error.truthy then
    .ok (emitShare s isValidShare false shareData)
  else
    match getProp result "hash" with
    | .error e => .error e
    | .ok hash =>
      if hash.strictEq blockHash then
        .ok (emitShare s isValidShare true shareData)
      else
        .ok (emitShare s isValidShare false shareData)

/-- The `share` handler registered in `SetupJobManager`. -/
def onShare (s : Pool) (shareData blockHex : JSVal) : Except JSError Pool :=
  match getProp shareData "error" with
  | .error e => .error e
  | .ok error =>
    let isValidShare := !error.truthy
    let isValidBlock := blockHex.truthy
    if !isValidBlock then
      .ok (emitShare s isValidShare isValidBlock shareData)
    else
      .ok (SubmitBlock s blockHex shareData isValidShare)

/-- The `newBlock` handler registered in `SetupJobManager`. -/
def onNewBlock (s : Pool) (blockTemplate : Job) : Pool :=
  match s.stratumServer with
  | none =>
    emitWarningLog s (.str "Stratum server still not started! cannot broadcast block!") .undefined
  | some _ =>
    let s1 := emitLog s (.str "system") (.str "Detected new block")
    { s1 with trace := s1.trace ++ [.broadcastMiningJobs blockTemplate.jobParams] }

/-- The function `GetBlockTemplate(callback)`; its callers are the polling
timer and `processBlockNotify`. -/
def GetBlockTemplate (s : Pool) (viaNotify : Bool) : Pool :=
  daemonCmd s "getblocktemplate"
    [objLit [("capabilities", .arr [.str "coinbasetxn", .str "workid", .str "coinbase/append"])]]
    (.getBlockTemplateCb viaNotify)

/-- The callback of the command of `GetBlockTemplate`, followed by the
caller's callback, which logs an error. -/
def getBlockTemplateCb (s : Pool) (viaNotify : Bool) (error result : JSVal) : Pool :=
  if error.truthy then
    if viaNotify then
      emitErrorLog s (.str "system")
        (.str ("Block notify error getting block template for " ++ s.options.name))
    else
      emitErrorLog s (.str "system")
        (.str ("Block polling error getting block template for " ++ s.options.name))
  else
    { s with trace := s.trace ++ [.processTemplate result s.publicKeyBuffer] }

/-- The method `processBlockNotify(blockHash)`. -/
def processBlockNotify (s : Pool) (blockHash : JSVal) : Except JSError Pool :=
  match s.jobManager.currentJob with
  | none => .error (.typeError "rpcData" "undefined")
  | some job =>
    match getProp job.rpcData "previousblockhash" with
    | .error e => .error e
    | .ok previousblockhash =>
      if !(blockHash.strictEq previousblockhash) then
        .ok (GetBlockTemplate s true)
      else
        .ok s

/-- The function `StartStratumServer`: the server object is created and
stored in `_this.stratumServer`, and the connection handlers are attached. -/
def StartStratumServer (s : Pool) : Pool :=
  let s1 := emitLog s (.str "system")
    (.str ("Stratum server starting on port " ++ toString s.options.stratumPort))
  { s1 with
    stratumServer := some (match s1.stratumServer with | none => 0 | some k => k + 1)
    trace := s1.trace ++ [.newStratumServer s1.options.stratumPort] }

/-- The function `SetupBlockPolling`. -/
def SetupBlockPolling (s : Pool) : Pool :=
  if s.options.blockRefreshInterval = 0 then
    emitLog s (.str "system") (.str "Block template polling has been disabled")
  else
    let pollingInterval := s.options.blockRefreshInterval * 1000
    let s1 : Pool :=
      { s with
        intervals := s.intervals ++ [pollingInterval]
        trace := s.trace ++ [.setInterval pollingInterval] }
    emitLog s1 (.str "system")
      (.str ("Block polling setup for every " ++ toString pollingInterval ++ " milliseconds"))

/-- The expression `options.reward === 'POW' ?
util.script_to_address(results.addressInfo.address) :
util.script_to_pubkey(results.addressInfo.pubkey)` of the final callback. -/
def deriveKey (util : Util) (reward addressInfo : JSVal) : Except JSError JSVal :=
  if reward.strictEq (.str "POW") then
    match getProp addressInfo "address" with
    | .error e => .error e
    | .ok address => .ok (util.script_to_address address)
  else
    match getProp addressInfo "pubkey" with
    | .error e => .error e
    | .ok pubkey => .ok (util.script_to_pubkey pubkey)

/-- The final callback `function(err, results)` of `async.parallel` in the
`online` handler. -/
def bootstrapDone (util : Util) (s : Pool) (err : JSVal) (results : Join) :
    Except JSError Pool :=
  if err.truthy then .ok s
  else
    let s1 := emitLog s (.str "system") (.str "Connected to daemon")
    let s2 : Pool := { s1 with options := { s1.options with hasSubmitMethod := results.submitMethod } }
    match deriveKey util s2.options.reward results.addressInfo with
    | .error e => .error e
    | .ok buffer =>
      let s3 : Pool := { s2 with publicKeyBuffer := buffer }
      .ok (SetupBlockPolling (StartStratumServer s3))

/-- Modelled from the spec: what `async.parallel` does when a task of the join
`j` calls its callback with `(err, value)`: `results[key] = value`; on an
error the final callback is called with it and then replaced by the empty
function (fail fast); otherwise the task is counted and the final callback is
called with `null` once both tasks have completed. -/
def parallelTaskDone (util : Util) (s : Pool) (j : Nat) (store : Join → Join) (err : JSVal) :
    Except JSError Pool :=
  match s.joins[j]? with
  | none => .ok s
  | some join =>
    let join1 := store join
    if err.truthy then
      let s1 : Pool := { s with joins := s.joins.set j { join1 with finished := true } }
      if join1.finished then .ok s1 else bootstrapDone util s1 err join1
    else
      let join2 : Join := { join1 with completed := join1.completed + 1 }
      let s1 : Pool := { s with joins := s.joins.set j join2 }
      if join2.completed ≥ 2 then
        if join2.finished then .ok s1 else bootstrapDone util s1 .null join2
      else .ok s1

/-- The callback of `validateaddress` in the task `addressInfo`. -/
def validateAddressCb (util : Util) (s : Pool) (j : Nat) (error result : JSVal) :
    Except JSError Pool :=
  if error.truthy then
    parallelTaskDone util (emitErrorLog s (.str "system") (.str "validateaddress rpc error")) j
      (fun join => { join with addressInfo := .undefined }) error
  else
    match getProp result "isvalid" with
    | .error e => .error e
    | .ok isvalid =>
      if !isvalid.truthy then
        parallelTaskDone util (emitErrorLog s (.str "system") (.str "address is not valid")) j
          (fun join => { join with addressInfo := .undefined }) (.str "address-not-valid")
      else
        parallelTaskDone util s j (fun join => { join with addressInfo := result }) error

/-- The callback of the `submitblock` probe in the task `submitMethod`. -/
def submitMethodCb (util : Util) (s : Pool) (j : Nat) (error _result : JSVal) :
    Except JSError Pool :=
  if error.truthy then
    match getProp error "message" with
    | .error e => .error e
    | .ok message =>
      if message.strictEq (.str "Method not found") then
        parallelTaskDone util s j (fun join => { join with submitMethod := .bool false }) .null
      else
        parallelTaskDone util s j (fun join => { join with submitMethod := .bool true }) .null
  else
    parallelTaskDone util s j (fun join => { join with submitMethod := .bool true }) .null

/-- The `online` handler registered in `SetupDaemonInterface`: `async.parallel`
starts the task `addressInfo`, then the task `submitMethod`. -/
def onOnline (s : Pool) : Pool :=
  let j := s.joins.length
  let s1 : Pool :=
    { s with joins := s.joins ++ [{ addressInfo := .undefined, submitMethod := .undefined,
                                    completed := 0, finished := false }] }
  let s2 := daemonCmd s1 "validateaddress" [s1.options.address] (.validateAddressCb j)
  daemonCmd s2 "submitblock" [] (.submitMethodCb j)

/-- The `subscription` handler of a connection. -/
def onSubscription (s : Pool) (client : Client) (_params : JSVal) : Pool :=
  let extraNonce := JSVal.num s.jobManager.extraNonceCounter
  let s1 : Pool :=
    { s with jobManager := { s.jobManager with extraNonceCounter := s.jobManager.extraNonceCounter + 1 } }
  let extraNonce2Size := s1.jobManager.extraNonce2Size
  let s2 : Pool :=
    { s1 with trace := s1.trace ++ [.subscriptionResult client.id .null extraNonce extraNonce2Size] }
  let s3 : Pool :=
    { s2 with trace := s2.trace ++ [.sendAndSetDifficultyIfNew client.id s2.options.difficulty] }
  match s3.jobManager.currentJob with
  | some currentJob =>
    { s3 with trace := s3.trace ++ [.sendMiningJob client.id currentJob.jobParams] }
  | none =>
    emitWarningLog s3 (.str "client") (.str "A miner subscribed but no job to dispatch!")

/-- The eight arguments the `submit` handler passes to `processShare`. -/
def processShareArgs (client : Client) (params : JSVal) : Except JSError (List JSVal) :=
  match getProp params "jobId", getProp params "extraNonce2", getProp params "nTime",
        getProp params "nonce", getProp params "name" with
  | .ok jobId, .ok extraNonce2, .ok nTime, .ok nonce, .ok name =>
    .ok [jobId, client.difficulty, client.extraNonce1, extraNonce2, nTime, nonce,
         client.remoteAddress, name]
  | .error e, _, _, _, _ => .error e
  | _, .error e, _, _, _ => .error e
  | _, _, .error e, _, _ => .error e
  | _, _, _, .error e, _ => .error e
  | _, _, _, _, .error e => .error e

/-- The `submit` handler of a connection; `outcome` is the object
`processShare` returned. -/
def onSubmit (s : Pool) (client : Client) (params outcome : JSVal) : Except JSError Pool :=
  match processShareArgs client params with
  | .error e => .error e
  | .ok args =>
    match getProp outcome "error", getProp outcome "result" with
    | .ok error, .ok result =>
      .ok { s with trace := s.trace ++
              [.processShare args,
               .submitResult client.id error (if result.truthy then .bool true else .null)] }
    | .error e, _ => .error e
    | _, .error e => .error e

/-- The daemon answers the command `id`: its callback, when it still waits,
is taken from the pending ones and run; an answer to a command that is not
waiting is ignored. -/
def onReply (util : Util) (s : Pool) (id : Nat) (error result : JSVal) : Except JSError Pool :=
  match s.pending.lookup id with
  | none => .ok s
  | some callback =>
    let s1 : Pool := { s with pending := s.pending.filter (fun p => p.1 != id) }
    match callback with
    | .submitBlockCb direct shareData isValidShare =>
      submitBlockCb s1 direct shareData isValidShare error result
    | .checkBlockAcceptedCb blockHash shareData isValidShare =>
      checkBlockAcceptedCb s1 blockHash shareData isValidShare error result
    | .validateAddressCb j => validateAddressCb util s1 j error result
    | .submitMethodCb j => submitMethodCb util s1 j error result
    | .getBlockTemplateCb viaNotify => .ok (getBlockTemplateCb s1 viaNotify error result)

/-- One handler run: the pool's reaction to a signal.  A handler that throws
yields the exception, which reaches the caller of the handler; the state a
throwing handler leaves behind is not modelled. -/
def step (util : Util) (s : Pool) : Event → Except JSError Pool
  | .jobNewBlock blockTemplate => .ok (onNewBlock s blockTemplate)
  | .jobShare shareData blockHex => onShare s shareData blockHex
  | .jobCurrent job => .ok { s with jobManager := { s.jobManager with currentJob := job } }
  | .daemonOnline => .ok (onOnline s)
  | .daemonStartFailed => .ok (emitErrorLog s (.str "system") (.str "Failed to start daemon"))
  | .daemonError message => .ok (emitErrorLog s (.str "system") message)
  | .daemonReply id error result => onReply util s id error result
  | .timerTick i => if i < s.intervals.length then .ok (GetBlockTemplate s false) else .ok s
  | .clientSubscription client params =>
    match s.stratumServer with
    | none => .ok s
    | some _ => .ok (onSubscription s client params)
  | .clientSubmit client params outcome =>
    match s.stratumServer with
    | none => .ok s
    | some _ => onSubmit s client params outcome
  | .blockNotify blockHash => processBlockNotify s blockHash

/-- A sequence of handler runs; an exception ends it. -/
def run (util : Util) (s : Pool) : List Event → Except JSError Pool
  | [] => .ok s
  | e :: es =>
    match step util s e with
    | .error err => .error err
    | .ok s1 => run util s1 es

/-- The pool right after `new pool(options, authorizeFn)`: `Init` has run
`SetupJobManager` and `SetupDaemonInterface`. -/
def Pool.init (options : Options) (extraNonce2Size : JSVal) : Pool :=
  emitLog
    { options := options
      publicKeyBuffer := .undefined
      stratumServer := none
      intervals := []
      jobManager := { currentJob := none, extraNonceCounter := 0, extraNonce2Size := extraNonce2Size }
      pending := []
      nextId := 0
      joins := []
      trace := [] }
    (.str "system") (.str "Connecting to daemon")

/-! ## Derived notions -/

/-- Every waiting callback belongs to a command that has been issued: its
identifier is below the next one to be given out. -/
def WF (s : Pool) : Prop := ∀ p ∈ s.pending, p.1 < s.nextId

/-- The outcome `isAccepted` of `CheckBlockAccepted` for the answer
`(error, result)` of `getblock`, when reading `result.hash` does not throw. -/
def accepted (blockHash error result : JSVal) : Bool :=
  !error.truthy &&
    (match getProp result "hash" with
     | .ok hash => hash.strictEq blockHash
     | .error _ => false)

/-- The log line of the callback of `SubmitBlock`. -/
def submitLog (direct : Bool) (error : JSVal) : Effect :=
  if direct then
    if error.truthy then
      .log "error" (.str "submitblock") (.str "rpc error when submitting block with submitblock")
    else
      .log "debug" (.str "submitblock") (.str "Submitted Block using submitblock")
  else
    if error.truthy then
      .log "error" (.str "submitblock") (.str "rpc error when submitting block with getblocktemplate")
    else
      .log "debug" (.str "submitblock") (.str "Submitted Block using getblocktemplate")

/-- The command `SubmitBlock` sends for `blockHex` under the capability flag
`flag`, as the effect recorded under the identifier `id`. -/
def submitCmd (id : Nat) (flag blockHex : JSVal) : Effect :=
  .cmd id
    (if flag.truthy then "submitblock" else "getblocktemplate")
    (if flag.truthy then [blockHex]
     else [objLit [("mode", .str "submit"), ("data", blockHex)]])

/-! ## Concrete inputs -/

/-- A configuration: pay-to-address rewards, polling every second, the
capability flag not yet written. -/
def exampleOptions : Options :=
  { algorithm := .str "sha256"
    address := .str "mfWxJ45yp2SFn7UciZyNpvDKrzbhyfKrY8"
    reward := .str "POW"
    daemon := .null
    stratumPort := 3333
    difficulty := .num 8
    blockRefreshInterval := 1
    name := "testpool"
    hasSubmitMethod := .undefined }

/-- Encoders that wrap their argument. -/
def exampleUtil : Util :=
  { script_to_address := fun a => .arr [.str "address", a]
    script_to_pubkey := fun k => .arr [.str "pubkey", k] }

/-- A freshly constructed pool. -/
def examplePool : Pool := Pool.init exampleOptions (.num 4)

/-- A share object of a valid share that solves the block `deadbeef`. -/
def exampleShare : JSVal := .obj 1 [("solution", .str "deadbeef")]

/-- The answer of `getblock` that names the block `deadbeef`. -/
def exampleBlock : JSVal := .obj 2 [("hash", .str "deadbeef")]

/-- The parameter list of the template fetch of `GetBlockTemplate`. -/
def templateParams : List JSVal :=
  [objLit [("capabilities", .arr [.str "coinbasetxn", .str "workid", .str "coinbase/append"])]]

/-- A job whose template names the previous block `00ab`. -/
def exampleJob : Job :=
  { rpcData := .obj 3 [("previousblockhash", .str "00ab")]
    jobParams := .arr [.str "job1"] }

/-- A freshly constructed pool whose job manager has a current job. -/
def examplePoolWithJob : Pool :=
  { examplePool with jobManager := { examplePool.jobManager with currentJob := some exampleJob } }

/-- A pool whose stratum server exists, with no current job. -/
def exampleStartedPool : Pool := { examplePool with stratumServer := some 0 }

/-- A connection. -/
def exampleClient : Client :=
  { id := 7, difficulty := .num 8, extraNonce1 := .str "08000002", remoteAddress := .str "10.0.0.9" }

/-- The parameters of a submit message. -/
def exampleSubmitParams : JSVal :=
  .obj 4 [("name", .str "worker1"), ("jobId", .str "1"), ("extraNonce2", .str "00000001"),
          ("nTime", .str "504e86ed"), ("nonce", .str "b2957c02")]

/-- The outcome `processShare` returns for a share it rejects: an error and
no result. -/
def exampleRejected : JSVal :=
  .obj 5 [("error", .arr [.num 23, .str "low difficulty share", .null]), ("result", .null)]

/-- The condition `error && error.message === 'Method not found'` of the
callback of the `submitblock` probe. -/
def methodNotFound (error : JSVal) : Bool :=
  error.truthy &&
    (match getProp error "message" with
     | .ok message => message.strictEq (.str "Method not found")
     | .error _ => false)

/-- Whether an effect is the construction of a stratum server. -/
def isNewServer : Effect → Bool
  | .newStratumServer _ => true
  | _ => false

/-- The number of stratum servers the pool has constructed, which is the
number of times the completion path of the bootstrap has run. -/
def serversCreated (s : Pool) : Nat := s.trace.countP isNewServer

/-- Whether an event is the `online` signal. -/
def isOnline : Event → Bool
  | .daemonOnline => true
  | _ => false

/-- The state after the `online` handler and a successful answer to
`validateaddress`, the probe still unanswered. -/
def awaitingProbe (s : Pool) (addressInfo : JSVal) : Pool :=
  { onOnline s with
    pending := s.pending ++ [(s.nextId + 1, .submitMethodCb s.joins.length)]
    joins := s.joins ++ [{ addressInfo := addressInfo, submitMethod := .undefined,
                           completed := 1, finished := false }] }

/-- The state after the `online` handler and an answer to the probe,
`validateaddress` still unanswered. -/
def awaitingAddress (s : Pool) (flag : Bool) : Pool :=
  { onOnline s with
    pending := s.pending ++ [(s.nextId, .validateAddressCb s.joins.length)]
    joins := s.joins ++ [{ addressInfo := .undefined, submitMethod := .bool flag,
                           completed := 1, finished := false }] }

/-- The state after the `online` handler and successful answers to both
probes: the final callback has logged, written the flag and the key, and
called `StartStratumServer` and `SetupBlockPolling`. -/
def bootstrapped (s : Pool) (addressInfo : JSVal) (flag : Bool) (key : JSVal) : Pool :=
  SetupBlockPolling (StartStratumServer
    { onOnline s with
      pending := s.pending
      joins := s.joins ++ [{ addressInfo := addressInfo, submitMethod := .bool flag,
                             completed := 2, finished := false }]
      trace := (onOnline s).trace ++ [.log "debug" (.str "system") (.str "Connected to daemon")]
      options := { s.options with hasSubmitMethod := .bool flag }
      publicKeyBuffer := key })

/-- The error log of the callback of `validateaddress`. -/
def validateFailLog (error : JSVal) : Effect :=
  .log "error" (.str "system")
    (.str (if error.truthy then "validateaddress rpc error" else "address is not valid"))

/-- The state after the `online` handler and a failed `validateaddress`:
`waiting` are the callbacks of the join still pending, `join` its record. -/
def bootstrapFailed (s : Pool) (error : JSVal) (join : Join) (waiting : List (Nat × Cont)) :
    Pool :=
  { onOnline s with
    pending := s.pending ++ waiting
    joins := s.joins ++ [join]
    trace := (onOnline s).trace ++ [validateFailLog error] }

/-- The fields the completion path of the bootstrap writes: the options (with
the capability flag), the public key buffer, the stratum server, the
installed intervals. -/
def started (s : Pool) : Options × JSVal × Option Nat × List Int :=
  (s.options, s.publicKeyBuffer, s.stratumServer, s.intervals)

/-- Whether a callback is one of the two task callbacks of the join `j`. -/
def isJoinCb (j : Nat) : Cont → Bool
  | .validateAddressCb k => k == j
  | .submitMethodCb k => k == j
  | _ => false

/-- The number of task callbacks of the join `j` the daemon has not answered. -/
def waitingFor (s : Pool) (j : Nat) : Nat := s.pending.countP (fun p => isJoinCb j p.2)

/-- The number of tasks of the join `j` that completed without error; two for
a join that does not exist, which has no task to wait for. -/
def completedOf (s : Pool) (j : Nat) : Nat :=
  match s.joins[j]? with
  | some join => join.completed
  | none => 2

/-- Every join has at most two tasks: those completed and those still waiting. -/
def JoinInv (s : Pool) : Prop := ∀ j, completedOf s j + waitingFor s j ≤ 2

/-- A join whose final callback may still run the completion path: no task
has reported an error and fewer than two have completed. -/
def Join.isOpen (join : Join) : Bool := !join.finished && decide (join.completed < 2)

/-- The number of open joins. -/
def openJoins (s : Pool) : Nat := s.joins.countP Join.isOpen

/-- What handler runs may do to the bookkeeping of the bootstrap between the
states `s` and `t`, with `n` the number of `online` signals in between. -/
structure Progress (s t : Pool) (n : Nat) : Prop where
  inv : JoinInv t
  potential : serversCreated t + openJoins t ≤ serversCreated s + openJoins s + n
  mono : serversCreated s ≤ serversCreated t
  quiet : serversCreated t = serversCreated s → started t = started s
  timers : t.intervals.length + serversCreated s ≤ s.intervals.length + serversCreated t

/-- An answer of `validateaddress` for a valid address. -/
def exampleAddressInfo : JSVal :=
  .obj 6 [("isvalid", .bool true), ("address", .str "mfWxJ45yp2SFn7UciZyNpvDKrzbhyfKrY8"),
          ("pubkey", .str "03a34b")]

/-- The error a daemon without `submitblock` answers the probe with. -/
def exampleMethodNotFound : JSVal :=
  .obj 8 [("code", .num (-32601)), ("message", .str "Method not found")]

/-- The signals of one bootstrap that completes on a fresh pool: `online`,
a valid address, a daemon without `submitblock`. -/
def exampleBootstrap : List Event :=
  [.daemonOnline, .daemonReply 0 .null exampleAddressInfo,
   .daemonReply 1 exampleMethodNotFound .undefined]

/-- Later signals: a repeated answer, a tick of the polling timer, a daemon
error. -/
def exampleLater : List Event :=
  [.daemonReply 1 .null .undefined, .timerTick 0, .daemonError (.str "connection lost")]

/-- The callback `cb` waits for the answer to the command `id`. -/
def Waits (id : Nat) (cb : Cont) (s : Pool) : Prop := s.pending.lookup id = some cb

/-- Whether an event is the daemon's answer to the command `id`. -/
def isReplyTo (id : Nat) : Event → Bool
  | .daemonReply k _ _ => k == id
  | _ => false

/-- Handler runs that may fall between the steps of a block submission: a
share without a block payload and a daemon error. -/
def exampleInterleaved : List Event :=
  [.jobShare (.obj 10 [("error", .str "low difficulty")]) .undefined,
   .daemonError (.str "connection lost")]

/-! ## Basic facts -/

theorem lookup_append_fresh (l : List (Nat × Cont)) (id : Nat) (c : Cont)
    (h : ∀ p ∈ l, p.1 < id) : (l ++ [(id, c)]).lookup id = some c := by
  induction l with
  | nil => simp [List.lookup]
  | cons a l ih =>
    have ha : a.1 < id := h a (by simp)
    have hne : (id == a.1) = false := by
      simp only [beq_eq_false_iff_ne, ne_eq]; omega
    obtain ⟨k, v⟩ := a
    simp only [List.cons_append, List.lookup, hne]
    exact ih (fun p hp => h p (by simp [hp]))

theorem filter_append_fresh (l : List (Nat × Cont)) (id : Nat) (c : Cont)
    (h : ∀ p ∈ l, p.1 < id) : (l ++ [(id, c)]).filter (fun p => p.1 != id) = l := by
  rw [List.filter_append]
  have h1 : l.filter (fun p => p.1 != id) = l := by
    apply List.filter_eq_self.mpr
    intro p hp
    have := h p hp
    simp only [bne_iff_ne, ne_eq]; omega
  simp [h1]

/-- Answering the command that was issued last runs its callback in the state
where only that callback has left the pending ones. -/
theorem onReply_daemonCmd (util : Util) (s : Pool) (hwf : WF s) (method : String)
    (params : List JSVal) (k : Cont) (error result : JSVal) :
    onReply util (daemonCmd s method params k) s.nextId error result =
      (let s1 : Pool := { s with trace := s.trace ++ [.cmd s.nextId method params]
                                 nextId := s.nextId + 1 }
       match k with
       | .submitBlockCb direct shareData isValidShare =>
         submitBlockCb s1 direct shareData isValidShare error result
       | .checkBlockAcceptedCb blockHash shareData isValidShare =>
         checkBlockAcceptedCb s1 blockHash shareData isValidShare error result
       | .validateAddressCb j => validateAddressCb util s1 j error result
       | .submitMethodCb j => submitMethodCb util s1 j error result
       | .getBlockTemplateCb viaNotify => .ok (getBlockTemplateCb s1 viaNotify error result)) := by
  unfold onReply
  simp only [daemonCmd, lookup_append_fresh s.pending s.nextId k hwf,
    filter_append_fresh s.pending s.nextId k hwf]

theorem getProp_ok_of_not_nullish (v : JSVal) (k : String) (h : v.nullish = false) :
    ∃ w, getProp v k = .ok w := by
  cases v <;> simp [getProp, JSVal.nullish] at h ⊢

theorem not_nullish_of_truthy (v : JSVal) (h : v.truthy = true) : v.nullish = false := by
  cases v <;> simp [JSVal.truthy, JSVal.nullish] at h ⊢

theorem lookup_none_of_lt (l : List (Nat × Cont)) (id : Nat) (h : ∀ p ∈ l, p.1 < id) :
    l.lookup id = none := by
  induction l with
  | nil => rfl
  | cons a l ih =>
    have ha : a.1 < id := h a (by simp)
    have hne : (id == a.1) = false := by
      simp only [beq_eq_false_iff_ne, ne_eq]; omega
    obtain ⟨k, v⟩ := a
    simp only [List.lookup, hne]
    exact ih (fun p hp => h p (by simp [hp]))

theorem onReply_unknown (util : Util) (s : Pool) (id : Nat) (error result : JSVal)
    (h : ∀ p ∈ s.pending, p.1 < id) : onReply util s id error result = .ok s := by
  unfold onReply
  rw [lookup_none_of_lt s.pending id h]

/-! ## The share pipeline -/

/-- The command `SubmitBlock` issues, according to the capability flag. -/
theorem SubmitBlock_eq (s : Pool) (blockHex shareData : JSVal) (v : Bool) :
    SubmitBlock s blockHex shareData v =
      daemonCmd s
        (if s.options.hasSubmitMethod.truthy then "submitblock" else "getblocktemplate")
        (if s.options.hasSubmitMethod.truthy then [blockHex]
         else [objLit [("mode", .str "submit"), ("data", blockHex)]])
        (.submitBlockCb s.options.hasSubmitMethod.truthy shareData v) := by
  unfold SubmitBlock
  cases h : s.options.hasSubmitMethod.truthy <;> simp

theorem submitBlockCb_eq (s : Pool) (direct : Bool) (shareData : JSVal) (v : Bool)
    (error result solution : JSVal) (hsol : getProp shareData "solution" = .ok solution) :
    submitBlockCb s direct shareData v error result =
      .ok (CheckBlockAccepted { s with trace := s.trace ++ [submitLog direct error] }
            solution shareData v) := by
  unfold submitBlockCb submitLog
  rw [hsol]
  cases direct <;> cases error.truthy <;> simp [emitErrorLog, emitLog]

theorem checkBlockAcceptedCb_eq (s : Pool) (blockHash shareData : JSVal) (v : Bool)
    (error result : JSVal) (h : error.truthy = true ∨ result.nullish = false) :
    checkBlockAcceptedCb s blockHash shareData v error result =
      .ok (emitShare s v (accepted blockHash error result) shareData) := by
  unfold checkBlockAcceptedCb accepted
  cases he : error.truthy
  · have hr : result.nullish = false := by
      rcases h with h | h
      · simp [he] at h
      · exact h
    obtain ⟨w, hw⟩ := getProp_ok_of_not_nullish result "hash" hr
    rw [hw]
    cases hq : w.strictEq blockHash <;> simp [hq]
  · simp

/-- The three handler runs of a share with a block payload, with the state
after each: the share signal, the answer to the submission, the answer to
`getblock`. -/
theorem share_pipeline (util : Util) (s : Pool) (hwf : WF s)
    (shareData blockHex subErr subRes chkErr chkRes error solution : JSVal)
    (herr : getProp shareData "error" = .ok error)
    (hsol : getProp shareData "solution" = .ok solution)
    (hbh : blockHex.truthy = true)
    (hchk : chkErr.truthy = true ∨ chkRes.nullish = false) :
    step util s (.jobShare shareData blockHex) =
      .ok { s with
            trace := s.trace ++ [submitCmd s.nextId s.options.hasSubmitMethod blockHex]
            pending := s.pending ++
              [(s.nextId, .submitBlockCb s.options.hasSubmitMethod.truthy shareData (!error.truthy))]
            nextId := s.nextId + 1 } ∧
    step util
        { s with
          trace := s.trace ++ [submitCmd s.nextId s.options.hasSubmitMethod blockHex]
          pending := s.pending ++
            [(s.nextId, .submitBlockCb s.options.hasSubmitMethod.truthy shareData (!error.truthy))]
          nextId := s.nextId + 1 }
        (.daemonReply s.nextId subErr subRes) =
      .ok { s with
            trace := s.trace ++ [submitCmd s.nextId s.options.hasSubmitMethod blockHex,
              submitLog s.options.hasSubmitMethod.truthy subErr,
              .cmd (s.nextId + 1) "getblock" [solution]]
            pending := s.pending ++
              [(s.nextId + 1, .checkBlockAcceptedCb solution shareData (!error.truthy))]
            nextId := s.nextId + 1 + 1 } ∧
    step util
        { s with
          trace := s.trace ++ [submitCmd s.nextId s.options.hasSubmitMethod blockHex,
            submitLog s.options.hasSubmitMethod.truthy subErr,
            .cmd (s.nextId + 1) "getblock" [solution]]
          pending := s.pending ++
            [(s.nextId + 1, .checkBlockAcceptedCb solution shareData (!error.truthy))]
          nextId := s.nextId + 1 + 1 }
        (.daemonReply (s.nextId + 1) chkErr chkRes) =
      .ok { s with
            trace := s.trace ++ [submitCmd s.nextId s.options.hasSubmitMethod blockHex,
              submitLog s.options.hasSubmitMethod.truthy subErr,
              .cmd (s.nextId + 1) "getblock" [solution],
              .share (!error.truthy) (accepted solution chkErr chkRes) shareData]
            nextId := s.nextId + 1 + 1 } := by
  refine ⟨?_, ?_, ?_⟩
  · simp only [step, onShare, herr, hbh, SubmitBlock_eq, daemonCmd, submitCmd]
    simp
  · have h := onReply_daemonCmd util s hwf
      (if s.options.hasSubmitMethod.truthy then "submitblock" else "getblocktemplate")
      (if s.options.hasSubmitMethod.truthy then [blockHex]
        else [objLit [("mode", .str "submit"), ("data", blockHex)]])
      (.submitBlockCb s.options.hasSubmitMethod.truthy shareData (!error.truthy)) subErr subRes
    simp only [daemonCmd] at h
    simp only [step, submitCmd, h, submitBlockCb_eq _ _ _ _ _ _ _ hsol, CheckBlockAccepted,
      daemonCmd]
    simp
  · have hwf1 : WF { s with
        trace := s.trace ++ [submitCmd s.nextId s.options.hasSubmitMethod blockHex,
          submitLog s.options.hasSubmitMethod.truthy subErr]
        nextId := s.nextId + 1 } := by
      intro p hp
      have := hwf p hp
      show p.1 < s.nextId + 1
      omega
    have h := onReply_daemonCmd util _ hwf1 "getblock" [solution]
      (.checkBlockAcceptedCb solution shareData (!error.truthy)) chkErr chkRes
    simp only [daemonCmd] at h
    simp only [List.append_assoc, List.cons_append, List.nil_append] at h
    simp only [step, h, checkBlockAcceptedCb_eq _ _ _ _ _ _ hchk, emitShare]
    simp

theorem WF_of_pending_nil (s : Pool) (h : s.pending = []) : WF s := by
  intro p hp
  rw [h] at hp
  cases hp

theorem WF_init (options : Options) (size : JSVal) : WF (Pool.init options size) := by
  intro p hp
  simp [Pool.init, emitLog] at hp

theorem accepted_iff (blockHash error result : JSVal) :
    accepted blockHash error result = true ↔
      (error.truthy = false ∧
        ∃ hash, getProp result "hash" = .ok hash ∧ hash.strictEq blockHash = true) := by
  unfold accepted
  cases he : error.truthy
  · cases hr : getProp result "hash" <;> simp
  · simp

/-- C2: a share signal without a block payload (falsy `blockHex`) makes the
pool emit exactly one `share` event, with block-validity false, share-validity
`!shareData.error` and the share object unchanged; nothing else happens, in
particular no daemon command is issued and no callback is left waiting. -/
theorem share_without_block_emits_once (util : Util) (s : Pool) (shareData blockHex : JSVal)
    (hsd : shareData.nullish = false) (hbh : blockHex.truthy = false) :
    ∃ error, getProp shareData "error" = .ok error ∧
      step util s (.jobShare shareData blockHex) =
        .ok { s with trace := s.trace ++ [.share (!error.truthy) false shareData] } := by
  obtain ⟨error, herr⟩ := getProp_ok_of_not_nullish shareData "error" hsd
  refine ⟨error, herr, ?_⟩
  simp [step, onShare, herr, hbh, emitShare]

theorem share_without_block_emits_once_witness :
    exampleShare.nullish = false ∧ (JSVal.str "").truthy = false ∧
    ∃ error, getProp exampleShare "error" = .ok error ∧
      step exampleUtil examplePool (.jobShare exampleShare (.str "")) =
        .ok { examplePool with
              trace := examplePool.trace ++ [.share (!error.truthy) false exampleShare] } :=
  ⟨rfl, rfl, share_without_block_emits_once exampleUtil examplePool exampleShare (.str "") rfl rfl⟩

/-- C3: for a share with a block payload and every answer `(subErr, subRes)`
to the submission, the share signal issues one submission command and nothing
else; the run of that command's callback logs and issues one `getblock`
command with the parameter list `[shareData.solution]`; the run of the
`getblock` callback emits the `share` event once.  After that both callbacks
have left the pending ones, so that a repeated answer changes nothing. -/
theorem submit_then_confirm_then_emit (util : Util) (s : Pool) (hwf : WF s)
    (shareData blockHex subErr subRes chkErr chkRes : JSVal)
    (hsd : shareData.nullish = false) (hbh : blockHex.truthy = true)
    (hchk : chkErr.truthy = true ∨ chkRes.nullish = false) :
    ∃ error solution s1 s2 s3,
      getProp shareData "error" = .ok error ∧
      getProp shareData "solution" = .ok solution ∧
      step util s (.jobShare shareData blockHex) = .ok s1 ∧
      s1.trace = s.trace ++ [submitCmd s.nextId s.options.hasSubmitMethod blockHex] ∧
      step util s1 (.daemonReply s.nextId subErr subRes) = .ok s2 ∧
      s2.trace = s1.trace ++
        [submitLog s.options.hasSubmitMethod.truthy subErr,
         .cmd (s.nextId + 1) "getblock" [solution]] ∧
      step util s2 (.daemonReply (s.nextId + 1) chkErr chkRes) = .ok s3 ∧
      s3.trace = s2.trace ++
        [.share (!error.truthy) (accepted solution chkErr chkRes) shareData] ∧
      s3.pending = s.pending ∧
      (∀ e r, step util s3 (.daemonReply s.nextId e r) = .ok s3) ∧
      (∀ e r, step util s3 (.daemonReply (s.nextId + 1) e r) = .ok s3) := by
  obtain ⟨error, herr⟩ := getProp_ok_of_not_nullish shareData "error" hsd
  obtain ⟨solution, hsol⟩ := getProp_ok_of_not_nullish shareData "solution" hsd
  obtain ⟨h1, h2, h3⟩ := share_pipeline util s hwf shareData blockHex subErr subRes chkErr chkRes
    error solution herr hsol hbh hchk
  refine ⟨error, solution, _, _, _, herr, hsol, h1, rfl, h2, ?_, h3, ?_, rfl, ?_, ?_⟩
  · simp
  · simp
  · intro e r
    exact onReply_unknown util _ _ e r (fun p hp => hwf p hp)
  · intro e r
    exact onReply_unknown util _ _ e r (fun p hp => Nat.lt_succ_of_lt (hwf p hp))

theorem submit_then_confirm_then_emit_witness :
    WF examplePool ∧ exampleShare.nullish = false ∧ (JSVal.str "00").truthy = true ∧
    ((JSVal.str "timeout").truthy = true ∨ JSVal.undefined.nullish = false) ∧
    ∃ error solution s1 s2 s3,
      getProp exampleShare "error" = .ok error ∧
      getProp exampleShare "solution" = .ok solution ∧
      step exampleUtil examplePool (.jobShare exampleShare (.str "00")) = .ok s1 ∧
      s1.trace = examplePool.trace ++
        [submitCmd examplePool.nextId examplePool.options.hasSubmitMethod (.str "00")] ∧
      step exampleUtil s1 (.daemonReply examplePool.nextId (.str "rejected") .undefined) = .ok s2 ∧
      s2.trace = s1.trace ++
        [submitLog examplePool.options.hasSubmitMethod.truthy (.str "rejected"),
         .cmd (examplePool.nextId + 1) "getblock" [solution]] ∧
      step exampleUtil s2
        (.daemonReply (examplePool.nextId + 1) (.str "timeout") .undefined) = .ok s3 ∧
      s3.trace = s2.trace ++
        [.share (!error.truthy) (accepted solution (.str "timeout") .undefined) exampleShare] ∧
      s3.pending = examplePool.pending ∧
      (∀ e r, step exampleUtil s3 (.daemonReply examplePool.nextId e r) = .ok s3) ∧
      (∀ e r, step exampleUtil s3 (.daemonReply (examplePool.nextId + 1) e r) = .ok s3) :=
  ⟨WF_init _ _, rfl, rfl, Or.inl rfl,
    submit_then_confirm_then_emit exampleUtil examplePool (WF_init _ _) exampleShare (.str "00")
      (.str "rejected") .undefined (.str "timeout") .undefined rfl rfl (Or.inl rfl)⟩

/-! ## Block notifications -/

/-- The command `GetBlockTemplate` sends and the callback it leaves waiting. -/
theorem GetBlockTemplate_eq (s : Pool) (viaNotify : Bool) :
    GetBlockTemplate s viaNotify =
      daemonCmd s "getblocktemplate" templateParams (.getBlockTemplateCb viaNotify) := rfl

/-- C10: `processBlockNotify(h)` on a pool that has not processed a template
yet (`jobManager.currentJob` is `undefined`) reads `.rpcData` of `undefined`
and throws a `TypeError` to its caller, for every hash `h`. -/
theorem notify_before_first_template_throws (util : Util) (options : Options)
    (extraNonce2Size h : JSVal) :
    step util (Pool.init options extraNonce2Size) (.blockNotify h) =
      .error (.typeError "rpcData" "undefined") := rfl

/-! ## Connections -/

/-- C8: the `subscription` handler of a connection (the stratum server
exists) first answers `resultCallback(null, extraNonce, extraNonce2Size)` with
the identifier taken from the job manager's counter, which advances; then it
calls `sendAndSetDifficultyIfNew(options.difficulty)`; then, with a current
job, it calls `sendMiningJob(currentJob.getJobParams())` once, and with no
current job it pushes no job and emits one warning log. -/
theorem subscription_result_difficulty_then_job (util : Util) (s : Pool) (k : Nat)
    (client : Client) (params : JSVal) (hsrv : s.stratumServer = some k) :
    (∀ job, s.jobManager.currentJob = some job →
      step util s (.clientSubscription client params) =
        .ok { s with
              jobManager := { s.jobManager with
                              extraNonceCounter := s.jobManager.extraNonceCounter + 1 }
              trace := s.trace ++
                [.subscriptionResult client.id .null (.num s.jobManager.extraNonceCounter)
                   s.jobManager.extraNonce2Size,
                 .sendAndSetDifficultyIfNew client.id s.options.difficulty,
                 .sendMiningJob client.id job.jobParams] }) ∧
    (s.jobManager.currentJob = none →
      step util s (.clientSubscription client params) =
        .ok { s with
              jobManager := { s.jobManager with
                              extraNonceCounter := s.jobManager.extraNonceCounter + 1 }
              trace := s.trace ++
                [.subscriptionResult client.id .null (.num s.jobManager.extraNonceCounter)
                   s.jobManager.extraNonce2Size,
                 .sendAndSetDifficultyIfNew client.id s.options.difficulty,
                 .log "warning" (.str "client")
                   (.str "A miner subscribed but no job to dispatch!")] }) := by
  constructor
  · intro job hjob
    simp [step, hsrv, onSubscription, hjob]
  · intro hjob
    simp [step, hsrv, onSubscription, hjob, emitWarningLog]

theorem subscription_result_difficulty_then_job_witness :
    exampleStartedPool.stratumServer = some 0 ∧
    (∀ job, exampleStartedPool.jobManager.currentJob = some job →
      step exampleUtil exampleStartedPool (.clientSubscription exampleClient .null) =
        .ok { exampleStartedPool with
              jobManager := { exampleStartedPool.jobManager with
                              extraNonceCounter :=
                                exampleStartedPool.jobManager.extraNonceCounter + 1 }
              trace := exampleStartedPool.trace ++
                [.subscriptionResult exampleClient.id .null
                   (.num exampleStartedPool.jobManager.extraNonceCounter)
                   exampleStartedPool.jobManager.extraNonce2Size,
                 .sendAndSetDifficultyIfNew exampleClient.id exampleStartedPool.options.difficulty,
                 .sendMiningJob exampleClient.id job.jobParams] }) ∧
    (exampleStartedPool.jobManager.currentJob = none →
      step exampleUtil exampleStartedPool (.clientSubscription exampleClient .null) =
        .ok { exampleStartedPool with
              jobManager := { exampleStartedPool.jobManager with
                              extraNonceCounter :=
                                exampleStartedPool.jobManager.extraNonceCounter + 1 }
              trace := exampleStartedPool.trace ++
                [.subscriptionResult exampleClient.id .null
                   (.num exampleStartedPool.jobManager.extraNonceCounter)
                   exampleStartedPool.jobManager.extraNonce2Size,
                 .sendAndSetDifficultyIfNew exampleClient.id exampleStartedPool.options.difficulty,
                 .log "warning" (.str "client")
                   (.str "A miner subscribed but no job to dispatch!")] }) :=
  ⟨rfl, subscription_result_difficulty_then_job exampleUtil exampleStartedPool 0 exampleClient
    .null rfl⟩

theorem processShareArgs_ok (client : Client) (params : JSVal) (h : params.nullish = false) :
    ∃ args, processShareArgs client params = .ok args := by
  cases params <;> simp [processShareArgs, getProp, JSVal.nullish] at h ⊢

/-- C9, the claim as stated fails: for an outcome of `processShare` without a
result object the handler replies with `null` as the success component, which
is not the boolean `false`. -/
theorem submit_reply_null_not_false :
    step exampleUtil exampleStartedPool
        (.clientSubmit exampleClient exampleSubmitParams exampleRejected) =
      .ok { exampleStartedPool with
            trace := exampleStartedPool.trace ++
              [.processShare [.str "1", .num 8, .str "08000002", .str "00000001",
                 .str "504e86ed", .str "b2957c02", .str "10.0.0.9", .str "worker1"],
               .submitResult 7 (.arr [.num 23, .str "low difficulty share", .null]) .null] } ∧
    JSVal.null ≠ JSVal.bool false :=
  ⟨rfl, fun h => nomatch h⟩

/-- C9, amended: the `submit` handler (the stratum server exists) calls
`processShare` and replies exactly once with `(error, success)`, where `error`
is the `error` field of the outcome and `success` is `true` when the outcome
has a truthy `result` field and `null` when it has not; the raw result value
is never passed on. -/
theorem submit_reply_true_or_null (util : Util) (s : Pool) (k : Nat) (client : Client)
    (params outcome : JSVal) (hsrv : s.stratumServer = some k)
    (hp : params.nullish = false) (ho : outcome.nullish = false) :
    ∃ args error result,
      processShareArgs client params = .ok args ∧
      getProp outcome "error" = .ok error ∧
      getProp outcome "result" = .ok result ∧
      step util s (.clientSubmit client params outcome) =
        .ok { s with
              trace := s.trace ++
                [.processShare args,
                 .submitResult client.id error (if result.truthy then .bool true else .null)] } := by
  obtain ⟨args, hargs⟩ := processShareArgs_ok client params hp
  obtain ⟨error, herr⟩ := getProp_ok_of_not_nullish outcome "error" ho
  obtain ⟨result, hres⟩ := getProp_ok_of_not_nullish outcome "result" ho
  refine ⟨args, error, result, hargs, herr, hres, ?_⟩
  simp [step, hsrv, onSubmit, hargs, herr, hres]

theorem submit_reply_true_or_null_witness :
    exampleStartedPool.stratumServer = some 0 ∧ exampleSubmitParams.nullish = false ∧
    exampleRejected.nullish = false ∧
    ∃ args error result,
      processShareArgs exampleClient exampleSubmitParams = .ok args ∧
      getProp exampleRejected "error" = .ok error ∧
      getProp exampleRejected "result" = .ok result ∧
      step exampleUtil exampleStartedPool
          (.clientSubmit exampleClient exampleSubmitParams exampleRejected) =
        .ok { exampleStartedPool with
              trace := exampleStartedPool.trace ++
                [.processShare args,
                 .submitResult exampleClient.id error
                   (if result.truthy then .bool true else .null)] } :=
  ⟨rfl, rfl, rfl,
    submit_reply_true_or_null exampleUtil exampleStartedPool 0 exampleClient exampleSubmitParams
      exampleRejected rfl rfl rfl⟩


/-! ## The bootstrap -/

theorem lookup_append_of_lt (l r : List (Nat × Cont)) (id : Nat) (h : ∀ p ∈ l, p.1 < id) :
    (l ++ r).lookup id = r.lookup id := by
  induction l with
  | nil => rfl
  | cons a l ih =>
    have ha : a.1 < id := h a (by simp)
    have hne : (id == a.1) = false := by
      simp only [beq_eq_false_iff_ne, ne_eq]; omega
    obtain ⟨k, v⟩ := a
    simp only [List.cons_append, List.lookup, hne]
    exact ih (fun p hp => h p (by simp [hp]))

theorem filter_append_of_lt (l r : List (Nat × Cont)) (id : Nat) (h : ∀ p ∈ l, p.1 < id) :
    (l ++ r).filter (fun p => p.1 != id) = l ++ r.filter (fun p => p.1 != id) := by
  rw [List.filter_append]
  have h1 : l.filter (fun p => p.1 != id) = l := by
    apply List.filter_eq_self.mpr
    intro p hp
    have := h p hp
    simp only [bne_iff_ne, ne_eq]; omega
  rw [h1]

theorem onOnline_eq (s : Pool) :
    onOnline s =
      { s with
        joins := s.joins ++ [{ addressInfo := .undefined, submitMethod := .undefined,
                               completed := 0, finished := false }]
        trace := s.trace ++ [.cmd s.nextId "validateaddress" [s.options.address],
                             .cmd (s.nextId + 1) "submitblock" []]
        pending := s.pending ++ [(s.nextId, .validateAddressCb s.joins.length),
                                 (s.nextId + 1, .submitMethodCb s.joins.length)]
        nextId := s.nextId + 1 + 1 } := by
  simp [onOnline, daemonCmd]

/-- The callback of the probe stores `!(error && error.message === 'Method
not found')` and reports no error. -/
theorem submitMethodCb_eq (util : Util) (s : Pool) (j : Nat) (error result : JSVal) :
    submitMethodCb util s j error result =
      parallelTaskDone util s j
        (fun join => { join with submitMethod := .bool (!methodNotFound error) }) .null := by
  unfold submitMethodCb methodNotFound
  cases he : error.truthy
  · simp
  · obtain ⟨m, hm⟩ := getProp_ok_of_not_nullish error "message" (not_nullish_of_truthy error he)
    rw [hm]
    cases hq : m.strictEq (.str "Method not found") <;> simp [hq]

/-- A result of `validateaddress` whose `isvalid` could be read is neither
`undefined` nor `null`, so the key derivation reads its property without
throwing. -/
theorem deriveKey_ok (util : Util) (reward addressInfo isvalid : JSVal)
    (hres : getProp addressInfo "isvalid" = .ok isvalid) :
    ∃ key, deriveKey util reward addressInfo = .ok key := by
  have hn : addressInfo.nullish = false := by
    cases addressInfo <;> simp [getProp, JSVal.nullish] at hres ⊢
  obtain ⟨a, ha⟩ := getProp_ok_of_not_nullish addressInfo "address" hn
  obtain ⟨k, hk⟩ := getProp_ok_of_not_nullish addressInfo "pubkey" hn
  unfold deriveKey
  rw [ha, hk]
  cases reward.strictEq (.str "POW") <;> simp

theorem null_truthy : JSVal.null.truthy = false := rfl

theorem succ_bne_self (n : Nat) : (n + 1 != n) = true := by simp

theorem self_bne_succ (n : Nat) : (n != n + 1) = true := by simp

theorem succ_beq_self (n : Nat) : (n + 1 == n) = false := by simp

theorem self_beq_succ (n : Nat) : (n == n + 1) = false := by simp

/-- The two handler runs that answer the probes of one bootstrap, in both
orders, when `validateaddress` succeeds. -/
theorem bootstrap_success (util : Util) (s : Pool) (hwf : WF s)
    (vErr vRes isvalid pErr pRes key : JSVal)
    (hv : vErr.truthy = false) (hres : getProp vRes "isvalid" = .ok isvalid)
    (hvalid : isvalid.truthy = true)
    (hkey : deriveKey util s.options.reward vRes = .ok key) :
    step util (onOnline s) (.daemonReply s.nextId vErr vRes) = .ok (awaitingProbe s vRes) ∧
    step util (awaitingProbe s vRes) (.daemonReply (s.nextId + 1) pErr pRes) =
      .ok (bootstrapped s vRes (!methodNotFound pErr) key) ∧
    step util (onOnline s) (.daemonReply (s.nextId + 1) pErr pRes) =
      .ok (awaitingAddress s (!methodNotFound pErr)) ∧
    step util (awaitingAddress s (!methodNotFound pErr)) (.daemonReply s.nextId vErr vRes) =
      .ok (bootstrapped s vRes (!methodNotFound pErr) key) := by
  have hlt : ∀ p ∈ s.pending, p.1 < s.nextId := hwf
  have hlt1 : ∀ p ∈ s.pending, p.1 < s.nextId + 1 := fun p hp => Nat.lt_succ_of_lt (hwf p hp)
  refine ⟨?_, ?_, ?_, ?_⟩
  · simp only [step, onReply, onOnline_eq, awaitingProbe, lookup_append_of_lt _ _ _ hlt,
      filter_append_of_lt _ _ _ hlt]
    simp [List.lookup, List.filter, validateAddressCb, hv, hres, hvalid, parallelTaskDone,
      succ_bne_self, self_bne_succ, succ_beq_self, self_beq_succ]
  · simp only [step, onReply, onOnline_eq, awaitingProbe, bootstrapped,
      lookup_append_of_lt _ _ _ hlt1, filter_append_of_lt _ _ _ hlt1, submitMethodCb_eq]
    simp [List.lookup, List.filter, parallelTaskDone, bootstrapDone, null_truthy, hkey, emitLog,
      succ_bne_self, self_bne_succ, succ_beq_self, self_beq_succ]
  · simp only [step, onReply, onOnline_eq, awaitingAddress, lookup_append_of_lt _ _ _ hlt1,
      filter_append_of_lt _ _ _ hlt1, submitMethodCb_eq]
    simp [List.lookup, List.filter, parallelTaskDone, null_truthy,
      succ_bne_self, self_bne_succ, succ_beq_self, self_beq_succ]
  · simp only [step, onReply, onOnline_eq, awaitingAddress, bootstrapped,
      lookup_append_of_lt _ _ _ hlt, filter_append_of_lt _ _ _ hlt]
    simp [List.lookup, List.filter, validateAddressCb, hv, hres, hvalid, parallelTaskDone,
      bootstrapDone, null_truthy, hkey, emitLog,
      succ_bne_self, self_bne_succ, succ_beq_self, self_beq_succ]

/-! ## Bookkeeping of the joins -/

theorem Progress.refl (s : Pool) (h : JoinInv s) : Progress s s 0 :=
  ⟨h, Nat.le_refl _, Nat.le_refl _, fun _ => rfl, Nat.le_refl _⟩

theorem Progress.trans {s t u : Pool} {n m : Nat} (h1 : Progress s t n) (h2 : Progress t u m) :
    Progress s u (n + m) := by
  refine ⟨h2.inv, ?_, ?_, ?_, ?_⟩
  · have := h1.potential
    have := h2.potential
    omega
  · exact Nat.le_trans h1.mono h2.mono
  · intro h
    have ha := h1.mono
    have hb := h2.mono
    have e1 : serversCreated t = serversCreated s := by omega
    have e2 : serversCreated u = serversCreated t := by omega
    rw [h2.quiet e2, h1.quiet e1]
  · have := h1.timers
    have := h2.timers
    omega

/-- A handler run that leaves the joins, the started fields and the number of
servers alone, and adds no task callback, makes no progress. -/
theorem Progress.of_frame {s t : Pool} (h : JoinInv s) (hj : t.joins = s.joins)
    (hs : started t = started s) (hc : serversCreated t = serversCreated s)
    (hw : ∀ j, waitingFor t j ≤ waitingFor s j) : Progress s t 0 := by
  have hi : t.intervals = s.intervals := by
    have := congrArg (fun x => x.2.2.2) hs
    simpa [started] using this
  refine ⟨?_, ?_, ?_, fun _ => hs, ?_⟩
  · intro j
    have h1 := h j
    have h2 := hw j
    have h3 : completedOf t j = completedOf s j := by simp [completedOf, hj]
    omega
  · simp [openJoins, hj, hc]
  · omega
  · rw [hi, hc]

theorem countP_set (l : List Join) (p : Join → Bool) (j : Nat) (a b : Join)
    (h : l[j]? = some a) :
    (l.set j b).countP p + (if p a then 1 else 0) = l.countP p + (if p b then 1 else 0) := by
  induction l generalizing j with
  | nil => simp at h
  | cons x l ih =>
    cases j with
    | zero =>
      simp only [List.getElem?_cons_zero, Option.some.injEq] at h
      subst h
      simp only [List.set_cons_zero, List.countP_cons]
      omega
    | succ j =>
      simp only [List.getElem?_cons_succ] at h
      have := ih j h
      simp only [List.set_cons_succ, List.countP_cons]
      omega

theorem countP_filter_le (l : List (Nat × Cont)) (id j : Nat) :
    (l.filter (fun p => p.1 != id)).countP (fun p => isJoinCb j p.2) ≤
      l.countP (fun p => isJoinCb j p.2) :=
  (List.filter_sublist l).countP_le _

theorem countP_filter_lookup (l : List (Nat × Cont)) (id j : Nat) (cb : Cont)
    (h : l.lookup id = some cb) (hcb : isJoinCb j cb = true) :
    (l.filter (fun p => p.1 != id)).countP (fun p => isJoinCb j p.2) + 1 ≤
      l.countP (fun p => isJoinCb j p.2) := by
  induction l with
  | nil => simp [List.lookup] at h
  | cons x l ih =>
    obtain ⟨k, v⟩ := x
    by_cases hk : id = k
    · subst hk
      simp only [List.lookup, beq_self_eq_true, Option.some.injEq] at h
      subst h
      have := countP_filter_le l id j
      simp only [List.filter, bne_self_eq_false, List.countP_cons, hcb, if_true]
      omega
    · have hne : (id == k) = false := by simpa using hk
      simp only [List.lookup, hne] at h
      have := ih h
      have hkk : (k != id) = true := by
        simp only [bne_iff_ne, ne_eq]; exact fun e => hk e.symm
      simp only [List.filter, hkk, List.countP_cons]
      omega

theorem bootstrapDone_spec (util : Util) (s t : Pool) (err : JSVal) (results : Join)
    (h : bootstrapDone util s err results = .ok t) :
    t.joins = s.joins ∧ t.pending = s.pending ∧
    ((err.truthy = true ∧ t = s) ∨
     (err.truthy = false ∧ serversCreated t = serversCreated s + 1 ∧
       t.intervals.length ≤ s.intervals.length + 1)) := by
  unfold bootstrapDone at h
  cases he : err.truthy
  · simp only [he, Bool.false_eq_true, if_false] at h
    cases hk : deriveKey util s.options.reward results.addressInfo with
    | error e => simp [emitLog, hk] at h
    | ok key =>
      simp only [emitLog, hk, Except.ok.injEq] at h
      subst h
      refine ⟨?_, ?_, Or.inr ⟨rfl, ?_, ?_⟩⟩
      · unfold SetupBlockPolling StartStratumServer emitLog
        split <;> rfl
      · unfold SetupBlockPolling StartStratumServer emitLog
        split <;> rfl
      · unfold SetupBlockPolling StartStratumServer emitLog serversCreated
        split <;> simp [List.countP_cons, isNewServer]
      · unfold SetupBlockPolling StartStratumServer emitLog
        split <;> simp
  · simp only [he, if_true, Except.ok.injEq] at h
    subst h
    exact ⟨rfl, rfl, Or.inl ⟨rfl, rfl⟩⟩

theorem completedOf_set (s : Pool) (j k : Nat) (join x : Join) (hj : s.joins[j]? = some join) :
    completedOf { s with joins := s.joins.set j x } k =
      if k = j then x.completed else completedOf s k := by
  have hlt : j < s.joins.length := by
    rcases Nat.lt_or_ge j s.joins.length with h | h
    · exact h
    · rw [List.getElem?_eq_none h] at hj
      cases hj
  unfold completedOf
  simp only [List.getElem?_set, hlt, if_true]
  by_cases hk : k = j
  · subst hk
    simp
  · have hk2 : ¬ j = k := fun e => hk e.symm
    simp [hk, hk2]

/-- Replacing the record of the join `j` by one with at most one more
completed task, and open only if the old one was, is progress when the join
has room for one more task. -/
theorem set_progress (s : Pool) (j : Nat) (join x : Join) (hj : s.joins[j]? = some join)
    (hx : x.completed ≤ join.completed + 1) (hopen : x.isOpen = true → join.isOpen = true)
    (hroom : ∀ k, completedOf s k + waitingFor s k + (if k = j then 1 else 0) ≤ 2) :
    Progress s { s with joins := s.joins.set j x } 0 := by
  have hcj : completedOf s j = join.completed := by simp [completedOf, hj]
  refine ⟨?_, ?_, Nat.le_refl _, fun _ => rfl, Nat.le_refl _⟩
  · intro k
    rw [completedOf_set s j k join x hj]
    have h1 := hroom k
    by_cases hk : k = j
    · subst hk
      simp only [if_true] at h1 ⊢
      have : waitingFor { s with joins := s.joins.set k x } k = waitingFor s k := rfl
      omega
    · simp only [hk, if_false] at h1 ⊢
      have : waitingFor { s with joins := s.joins.set j x } k = waitingFor s k := rfl
      omega
  · have h1 := countP_set s.joins Join.isOpen j join x hj
    have h2 : serversCreated { s with joins := s.joins.set j x } = serversCreated s := rfl
    have h3 : openJoins { s with joins := s.joins.set j x } =
        (s.joins.set j x).countP Join.isOpen := rfl
    have h4 : openJoins s = s.joins.countP Join.isOpen := rfl
    rw [h2, h3, h4]
    cases hxo : x.isOpen <;> cases hjo : join.isOpen <;>
      simp only [hxo, hjo, if_true, Bool.false_eq_true, if_false] at h1 hopen <;>
      first | omega | exact absurd (hopen trivial) (by simp)

/-- The completion path run after the record of a join has been replaced. -/
theorem boot_progress (s u t : Pool) (hP : Progress s u 0)
    (hsc : serversCreated u = serversCreated s) (hiv : u.intervals = s.intervals)
    (hopen : openJoins u + 1 ≤ openJoins s)
    (hjo : t.joins = u.joins) (hpe : t.pending = u.pending)
    (hsc1 : serversCreated t = serversCreated u + 1)
    (hiv1 : t.intervals.length ≤ u.intervals.length + 1) : Progress s t 0 := by
  refine ⟨?_, ?_, ?_, ?_, ?_⟩
  · intro k
    have h1 := hP.inv k
    have e1 : completedOf t k = completedOf u k := by simp [completedOf, hjo]
    have e2 : waitingFor t k = waitingFor u k := by simp [waitingFor, hpe]
    omega
  · have e3 : openJoins t = openJoins u := by simp [openJoins, hjo]
    omega
  · omega
  · intro hq
    omega
  · rw [hiv] at hiv1
    omega

/-- The bookkeeping of one task callback of the join `j`, run in a state
where the join still has room for it. -/
theorem parallelTaskDone_progress (util : Util) (s t : Pool) (j : Nat) (store : Join → Join)
    (err : JSVal)
    (hstore : ∀ join, (store join).completed = join.completed ∧
      (store join).finished = join.finished)
    (hroom : ∀ k, completedOf s k + waitingFor s k + (if k = j then 1 else 0) ≤ 2)
    (h : parallelTaskDone util s j store err = .ok t) : Progress s t 0 := by
  have hinv : JoinInv s := fun k => by have := hroom k; omega
  unfold parallelTaskDone at h
  cases hj : s.joins[j]? with
  | none =>
    simp only [hj, Except.ok.injEq] at h
    subst h
    exact Progress.refl s hinv
  | some join =>
    simp only [hj] at h
    obtain ⟨hc, hf⟩ := hstore join
    have hcj : completedOf s j = join.completed := by simp [completedOf, hj]
    have hle : join.completed ≤ 1 := by
      have := hroom j
      simp only [if_true] at this
      omega
    by_cases he : err.truthy = true
    · -- the task reports an error: the join is finished
      have hP := set_progress s j join { store join with finished := true } hj
        (by simp [hc]) (by simp [Join.isOpen]) hroom
      rw [if_pos he] at h
      by_cases hfin : (store join).finished = true
      · rw [if_pos hfin] at h
        cases h
        exact hP
      · rw [if_neg hfin] at h
        obtain ⟨-, -, hb | hb⟩ := bootstrapDone_spec util _ _ _ _ h
        · rw [hb.2]
          exact hP
        · rw [he] at hb
          cases hb.1
    · -- the task completes
      have hopen : ({ store join with completed := (store join).completed + 1 } : Join).isOpen
          = true → join.isOpen = true := by
        simp only [Join.isOpen, hf, hc, Bool.and_eq_true, Bool.not_eq_true', decide_eq_true_eq]
        intro h
        exact ⟨h.1, by omega⟩
      have hP := set_progress s j join { store join with completed := (store join).completed + 1 }
        hj (by simp [hc]) hopen hroom
      rw [if_neg he] at h
      by_cases hdone : (store join).completed + 1 ≥ 2
      · rw [if_pos hdone] at h
        by_cases hfin : (store join).finished = true
        · rw [if_pos hfin] at h
          cases h
          exact hP
        · rw [if_neg hfin] at h
          obtain ⟨hjo, hpe, hb | hb⟩ := bootstrapDone_spec util _ _ _ _ h
          · simp [JSVal.truthy] at hb
          · obtain ⟨-, hsc, hiv⟩ := hb
            have hcount := countP_set s.joins Join.isOpen j join
              { store join with completed := (store join).completed + 1 } hj
            have ho1 : join.isOpen = true := by
              simp only [Join.isOpen, Bool.and_eq_true, Bool.not_eq_true', decide_eq_true_eq]
              refine ⟨?_, by omega⟩
              rw [← hf]
              simpa using hfin
            have ho2 : ({ store join with completed := (store join).completed + 1 } : Join).isOpen
                = false := by
              simp only [Join.isOpen, Bool.and_eq_false_imp, decide_eq_false_iff_not]
              intro _
              omega
            simp only [ho1, ho2, if_true, Bool.false_eq_true, if_false, Nat.add_zero] at hcount
            exact boot_progress s _ t hP rfl rfl
              (by show List.countP Join.isOpen (s.joins.set j _) + 1 ≤
                    List.countP Join.isOpen s.joins
                  exact Nat.le_of_eq hcount)
              hjo hpe hsc hiv
      · rw [if_neg hdone] at h
        cases h
        exact hP

theorem Progress.congr_left {s u t : Pool} {n : Nat} (h : Progress u t n)
    (h1 : serversCreated u = serversCreated s) (h2 : openJoins u = openJoins s)
    (h3 : started u = started s) : Progress s t n := by
  have hi : u.intervals = s.intervals := by
    have := congrArg (fun x => x.2.2.2) h3
    simpa [started] using this
  refine ⟨h.inv, ?_, ?_, ?_, ?_⟩
  · have := h.potential
    omega
  · have := h.mono
    omega
  · intro hq
    rw [← h3]
    exact h.quiet (by omega)
  · have := h.timers
    rw [hi] at this
    omega

/-- The room a join has once one of its task callbacks has been taken from
the pending ones. -/
theorem room_after_lookup (s : Pool) (hinv : JoinInv s) (id j : Nat) (cb : Cont)
    (hl : s.pending.lookup id = some cb) (hcb : isJoinCb j cb = true) (u : Pool)
    (hj : u.joins = s.joins) (hp : u.pending = s.pending.filter (fun p => p.1 != id)) :
    ∀ k, completedOf u k + waitingFor u k + (if k = j then 1 else 0) ≤ 2 := by
  intro k
  have h1 := hinv k
  have e1 : completedOf u k = completedOf s k := by simp [completedOf, hj]
  have e2 : waitingFor u k ≤ waitingFor s k := by
    simp only [waitingFor, hp]
    exact countP_filter_le s.pending id k
  by_cases hk : k = j
  · subst hk
    have e3 : waitingFor u k + 1 ≤ waitingFor s k := by
      simp only [waitingFor, hp]
      exact countP_filter_lookup s.pending id k cb hl hcb
    simp only [if_true]
    omega
  · simp only [hk, if_false]
    omega

theorem onOnline_progress (s : Pool) (hinv : JoinInv s) : Progress s (onOnline s) 1 := by
  have hsc : serversCreated (onOnline s) = serversCreated s := by
    simp [onOnline_eq, serversCreated, List.countP_cons, isNewServer]
  have ho : openJoins (onOnline s) = openJoins s + 1 := by
    simp [onOnline_eq, openJoins, List.countP_cons, Join.isOpen]
  have hst : started (onOnline s) = started s := by
    simp [onOnline_eq, started]
  have hw : ∀ j, waitingFor (onOnline s) j =
      waitingFor s j + (if s.joins.length = j then 2 else 0) := by
    intro j
    by_cases hj : s.joins.length = j
    · simp [onOnline_eq, waitingFor, List.countP_cons, isJoinCb, hj]
    · simp [onOnline_eq, waitingFor, List.countP_cons, isJoinCb, hj]
  have hc : ∀ j, completedOf (onOnline s) j =
      if s.joins.length = j then 0 else completedOf s j := by
    intro j
    simp only [onOnline_eq, completedOf]
    rcases Nat.lt_trichotomy j s.joins.length with hlt | heq | hgt
    · have hne : ¬ s.joins.length = j := by omega
      rw [List.getElem?_append_left hlt]
      simp only [hne, if_false]
    · subst heq
      rw [List.getElem?_concat_length]
      simp
    · have hne : ¬ s.joins.length = j := by omega
      rw [List.getElem?_eq_none (by simp; omega), List.getElem?_eq_none (by omega)]
      simp only [hne, if_false]
  have hi : (onOnline s).intervals = s.intervals := by
    simp [onOnline_eq]
  refine ⟨?_, ?_, ?_, fun _ => hst, ?_⟩
  · intro j
    have h1 := hinv j
    have e0 : completedOf s s.joins.length = 2 := by
      simp [completedOf]
    rw [hw j, hc j]
    by_cases hj : s.joins.length = j
    · subst hj
      simp only [if_true]
      omega
    · simp only [hj, if_false]
      omega
  · omega
  · omega
  · rw [hi, hsc]

theorem isNewServer_submitLog (direct : Bool) (error : JSVal) :
    isNewServer (submitLog direct error) = false := by
  unfold submitLog
  cases direct <;> cases error.truthy <;> rfl

theorem onReply_progress (util : Util) (s t : Pool) (id : Nat) (error result : JSVal)
    (hinv : JoinInv s) (h : onReply util s id error result = .ok t) : Progress s t 0 := by
  unfold onReply at h
  cases hl : s.pending.lookup id with
  | none =>
    rw [hl] at h
    cases h
    exact Progress.refl s hinv
  | some cb =>
    rw [hl] at h
    cases cb with
    | submitBlockCb direct shareData v =>
      simp only at h
      cases hs : getProp shareData "solution" with
      | error e => simp [submitBlockCb, hs] at h
      | ok solution =>
        rw [submitBlockCb_eq _ _ _ _ _ _ _ hs] at h
        cases h
        refine Progress.of_frame hinv rfl rfl ?_ ?_
        · simp only [serversCreated, CheckBlockAccepted, daemonCmd, List.countP_append,
            List.countP_cons, List.countP_nil, isNewServer_submitLog]
          simp [isNewServer]
        · intro j
          simp only [waitingFor, CheckBlockAccepted, daemonCmd, List.countP_append,
            List.countP_cons, List.countP_nil, isJoinCb]
          exact countP_filter_le s.pending id j
    | checkBlockAcceptedCb blockHash shareData v =>
      simp only at h
      have hframe : ∀ b, Progress s
          (emitShare { s with pending := s.pending.filter (fun p => p.1 != id) } v b shareData)
          0 := by
        intro b
        refine Progress.of_frame hinv rfl rfl ?_ ?_
        · simp [serversCreated, emitShare, List.countP_cons, isNewServer]
        · intro j
          exact countP_filter_le s.pending id j
      unfold checkBlockAcceptedCb at h
      split at h
      · cases h
        exact hframe false
      · split at h
        · cases h
        · split at h <;> cases h
          · exact hframe true
          · exact hframe false
    | validateAddressCb j =>
      simp only at h
      have hstore : ∀ (a : JSVal) (join : Join),
          ({ join with addressInfo := a } : Join).completed = join.completed ∧
          ({ join with addressInfo := a } : Join).finished = join.finished :=
        fun _ _ => ⟨rfl, rfl⟩
      unfold validateAddressCb at h
      split at h
      · have hroom := room_after_lookup s hinv id j _ hl (by simp [isJoinCb])
          (emitErrorLog { s with pending := s.pending.filter (fun p => p.1 != id) }
            (.str "system") (.str "validateaddress rpc error")) rfl rfl
        refine (parallelTaskDone_progress util _ t j _ _ (hstore .undefined) hroom h).congr_left
          ?_ rfl rfl
        simp [serversCreated, emitErrorLog, List.countP_cons, isNewServer]
      · split at h
        · cases h
        · split at h
          · have hroom := room_after_lookup s hinv id j _ hl (by simp [isJoinCb])
              (emitErrorLog { s with pending := s.pending.filter (fun p => p.1 != id) }
                (.str "system") (.str "address is not valid")) rfl rfl
            refine (parallelTaskDone_progress util _ t j _ _ (hstore .undefined) hroom
              h).congr_left ?_ rfl rfl
            simp [serversCreated, emitErrorLog, List.countP_cons, isNewServer]
          · have hroom := room_after_lookup s hinv id j _ hl (by simp [isJoinCb])
              { s with pending := s.pending.filter (fun p => p.1 != id) } rfl rfl
            exact (parallelTaskDone_progress util _ t j _ _ (hstore result) hroom h).congr_left
              rfl rfl rfl
    | submitMethodCb j =>
      simp only at h
      rw [submitMethodCb_eq] at h
      have hroom := room_after_lookup s hinv id j _ hl (by simp [isJoinCb])
        { s with pending := s.pending.filter (fun p => p.1 != id) } rfl rfl
      have hP := parallelTaskDone_progress util _ t j _ _ ?_ hroom h
      · exact hP.congr_left rfl rfl rfl
      · exact fun _ => ⟨rfl, rfl⟩
    | getBlockTemplateCb viaNotify =>
      simp only [Except.ok.injEq] at h
      subst h
      unfold getBlockTemplateCb
      split
      · split
        all_goals
          refine Progress.of_frame hinv rfl rfl ?_ ?_
          · simp [serversCreated, emitErrorLog, List.countP_cons, isNewServer]
          · intro j
            exact countP_filter_le s.pending id j
      · refine Progress.of_frame hinv rfl rfl ?_ ?_
        · simp [serversCreated, List.countP_cons, isNewServer]
        · intro j
          exact countP_filter_le s.pending id j

theorem GetBlockTemplate_progress (s : Pool) (hinv : JoinInv s) (viaNotify : Bool) :
    Progress s (GetBlockTemplate s viaNotify) 0 := by
  refine Progress.of_frame hinv rfl rfl ?_ ?_
  · simp [serversCreated, GetBlockTemplate, daemonCmd, List.countP_cons, isNewServer]
  · intro j
    simp [waitingFor, GetBlockTemplate, daemonCmd, List.countP_cons, isJoinCb]

/-- The bookkeeping of one handler run. -/
theorem step_progress (util : Util) (s t : Pool) (e : Event) (hinv : JoinInv s)
    (h : step util s e = .ok t) : Progress s t (if isOnline e then 1 else 0) := by
  cases e with
  | jobNewBlock blockTemplate =>
    show Progress s t 0
    simp only [step, Except.ok.injEq] at h
    subst h
    unfold onNewBlock
    split
    · refine Progress.of_frame hinv rfl rfl ?_ (fun j => Nat.le_refl _)
      simp [serversCreated, emitWarningLog, List.countP_cons, isNewServer]
    · refine Progress.of_frame hinv rfl rfl ?_ (fun j => Nat.le_refl _)
      simp [serversCreated, emitLog, List.countP_cons, isNewServer]
  | jobShare shareData blockHex =>
    show Progress s t 0
    simp only [step, onShare] at h
    split at h
    · cases h
    · split at h
      · cases h
        refine Progress.of_frame hinv rfl rfl ?_ (fun j => Nat.le_refl _)
        simp [serversCreated, emitShare, List.countP_cons, isNewServer]
      · cases h
        rw [SubmitBlock_eq]
        refine Progress.of_frame hinv rfl rfl ?_ ?_
        · simp [serversCreated, daemonCmd, List.countP_cons, isNewServer]
        · intro j
          simp [waitingFor, daemonCmd, List.countP_cons, isJoinCb]
  | jobCurrent job =>
    show Progress s t 0
    simp only [step, Except.ok.injEq] at h
    subst h
    exact Progress.of_frame hinv rfl rfl rfl (fun j => Nat.le_refl _)
  | daemonOnline =>
    show Progress s t 1
    simp only [step, Except.ok.injEq] at h
    subst h
    exact onOnline_progress s hinv
  | daemonStartFailed =>
    show Progress s t 0
    simp only [step, Except.ok.injEq] at h
    subst h
    refine Progress.of_frame hinv rfl rfl ?_ (fun j => Nat.le_refl _)
    simp [serversCreated, emitErrorLog, List.countP_cons, isNewServer]
  | daemonError message =>
    show Progress s t 0
    simp only [step, Except.ok.injEq] at h
    subst h
    refine Progress.of_frame hinv rfl rfl ?_ (fun j => Nat.le_refl _)
    simp [serversCreated, emitErrorLog, List.countP_cons, isNewServer]
  | daemonReply id error result =>
    show Progress s t 0
    exact onReply_progress util s t id error result hinv h
  | timerTick i =>
    show Progress s t 0
    simp only [step] at h
    split at h
    · cases h
      exact GetBlockTemplate_progress s hinv false
    · cases h
      exact Progress.refl s hinv
  | clientSubscription client params =>
    show Progress s t 0
    simp only [step] at h
    split at h
    · cases h
      exact Progress.refl s hinv
    · cases h
      cases hcj : s.jobManager.currentJob with
      | some job =>
        simp only [onSubscription, hcj]
        refine Progress.of_frame hinv rfl rfl ?_ (fun j => Nat.le_refl _)
        simp [serversCreated, List.countP_cons, isNewServer]
      | none =>
        simp only [onSubscription, hcj]
        refine Progress.of_frame hinv rfl rfl ?_ (fun j => Nat.le_refl _)
        simp [serversCreated, emitWarningLog, List.countP_cons, isNewServer]
  | clientSubmit client params outcome =>
    show Progress s t 0
    simp only [step] at h
    split at h
    · cases h
      exact Progress.refl s hinv
    · unfold onSubmit at h
      split at h
      · cases h
      · split at h
        · cases h
          refine Progress.of_frame hinv rfl rfl ?_ (fun j => Nat.le_refl _)
          simp [serversCreated, List.countP_cons, isNewServer]
        · cases h
        · cases h
  | blockNotify blockHash =>
    show Progress s t 0
    simp only [step, processBlockNotify] at h
    split at h
    · cases h
    · split at h
      · cases h
      · split at h
        · cases h
          exact GetBlockTemplate_progress s hinv true
        · cases h
          exact Progress.refl s hinv

/-- The bookkeeping of a sequence of handler runs. -/
theorem run_progress (util : Util) (evs : List Event) (s t : Pool) (hinv : JoinInv s)
    (h : run util s evs = .ok t) : Progress s t (evs.countP isOnline) := by
  induction evs generalizing s with
  | nil =>
    simp only [run, Except.ok.injEq] at h
    subst h
    exact Progress.refl s hinv
  | cons e es ih =>
    simp only [run] at h
    cases hs : step util s e with
    | error err => simp [hs] at h
    | ok u =>
      rw [hs] at h
      have h1 := step_progress util s u e hinv hs
      have h2 := ih u h1.inv h
      have h3 := h1.trans h2
      rw [List.countP_cons, Nat.add_comm]
      exact h3


theorem JoinInv_init (options : Options) (size : JSVal) : JoinInv (Pool.init options size) := by
  intro j
  simp [completedOf, waitingFor, Pool.init, emitLog]

theorem address_not_valid_truthy : (JSVal.str "address-not-valid").truthy = true := by decide

/-- The handler run that answers `validateaddress` with a failure, before and
after the probe has been answered. -/
theorem bootstrap_failure (util : Util) (s : Pool) (hwf : WF s) (vErr vRes : JSVal)
    (flag : Bool)
    (hfail : vErr.truthy = true ∨
      ∃ isvalid, getProp vRes "isvalid" = .ok isvalid ∧ isvalid.truthy = false) :
    step util (onOnline s) (.daemonReply s.nextId vErr vRes) =
      .ok (bootstrapFailed s vErr
            { addressInfo := .undefined, submitMethod := .undefined, completed := 0,
              finished := true }
            [(s.nextId + 1, .submitMethodCb s.joins.length)]) ∧
    step util (awaitingAddress s flag) (.daemonReply s.nextId vErr vRes) =
      .ok (bootstrapFailed s vErr
            { addressInfo := .undefined, submitMethod := .bool flag, completed := 1,
              finished := true }
            []) := by
  have hlt : ∀ p ∈ s.pending, p.1 < s.nextId := hwf
  cases he : vErr.truthy
  · obtain ⟨isvalid, hres, hvalid⟩ : ∃ isvalid, getProp vRes "isvalid" = .ok isvalid ∧
        isvalid.truthy = false := by
      rcases hfail with h | h
      · rw [he] at h
        cases h
      · exact h
    refine ⟨?_, ?_⟩
    · simp only [step, onReply, onOnline_eq, bootstrapFailed, validateFailLog,
        lookup_append_of_lt _ _ _ hlt, filter_append_of_lt _ _ _ hlt]
      simp [List.lookup, List.filter, validateAddressCb, he, hres, hvalid, parallelTaskDone,
        bootstrapDone, address_not_valid_truthy, emitErrorLog,
        succ_bne_self, self_bne_succ, succ_beq_self, self_beq_succ]
    · simp only [step, onReply, onOnline_eq, awaitingAddress, bootstrapFailed, validateFailLog,
        lookup_append_of_lt _ _ _ hlt, filter_append_of_lt _ _ _ hlt]
      simp [List.lookup, List.filter, validateAddressCb, he, hres, hvalid, parallelTaskDone,
        bootstrapDone, address_not_valid_truthy, emitErrorLog,
        succ_bne_self, self_bne_succ, succ_beq_self, self_beq_succ]
  · refine ⟨?_, ?_⟩
    · simp only [step, onReply, onOnline_eq, bootstrapFailed, validateFailLog,
        lookup_append_of_lt _ _ _ hlt, filter_append_of_lt _ _ _ hlt]
      simp [List.lookup, List.filter, validateAddressCb, he, parallelTaskDone,
        bootstrapDone, emitErrorLog,
        succ_bne_self, self_bne_succ, succ_beq_self, self_beq_succ]
    · simp only [step, onReply, onOnline_eq, awaitingAddress, bootstrapFailed, validateFailLog,
        lookup_append_of_lt _ _ _ hlt, filter_append_of_lt _ _ _ hlt]
      simp [List.lookup, List.filter, validateAddressCb, he, parallelTaskDone,
        bootstrapDone, emitErrorLog,
        succ_bne_self, self_bne_succ, succ_beq_self, self_beq_succ]

/-- What the completion path leaves in the state. -/
theorem bootstrapped_fields (s : Pool) (addressInfo : JSVal) (flag : Bool) (key : JSVal) :
    (bootstrapped s addressInfo flag key).options =
      { s.options with hasSubmitMethod := .bool flag } ∧
    (bootstrapped s addressInfo flag key).publicKeyBuffer = key ∧
    (bootstrapped s addressInfo flag key).stratumServer =
      some (match s.stratumServer with | none => 0 | some k => k + 1) ∧
    (bootstrapped s addressInfo flag key).intervals =
      (if s.options.blockRefreshInterval = 0 then s.intervals
       else s.intervals ++ [s.options.blockRefreshInterval * 1000]) ∧
    serversCreated (bootstrapped s addressInfo flag key) = serversCreated s + 1 := by
  unfold bootstrapped SetupBlockPolling StartStratumServer
  by_cases h : s.options.blockRefreshInterval = 0
  · simp [h, emitLog, onOnline_eq, serversCreated, List.countP_cons, isNewServer]
  · simp [h, emitLog, onOnline_eq, serversCreated, List.countP_cons, isNewServer]

/-- A state in which no join is open stays unstarted as long as no `online`
signal arrives. -/
theorem closed_stays_closed (util : Util) (evs : List Event) (u t : Pool) (hinv : JoinInv u)
    (hopen : openJoins u = 0) (hno : evs.countP isOnline = 0) (h : run util u evs = .ok t) :
    started t = started u ∧ serversCreated t = serversCreated u := by
  have hP := run_progress util evs u t hinv h
  have h1 := hP.potential
  have h2 := hP.mono
  have h3 : serversCreated t = serversCreated u := by omega
  exact ⟨hP.quiet h3, h3⟩

theorem run_cons_ok (util : Util) (s u : Pool) (e : Event) (es : List Event)
    (h : step util s e = .ok u) : run util s (e :: es) = run util u es := by
  simp only [run, h]

theorem run_nil (util : Util) (s : Pool) : run util s [] = .ok s := rfl

theorem step_online (util : Util) (s : Pool) : step util s .daemonOnline = .ok (onOnline s) :=
  rfl

theorem methodNotFound_iff (error : JSVal) :
    methodNotFound error = true ↔
      (error.truthy = true ∧
        ∃ message, getProp error "message" = .ok message ∧
          message.strictEq (.str "Method not found") = true) := by
  unfold methodNotFound
  cases he : error.truthy
  · simp
  · cases hr : getProp error "message" <;> simp

/-- C4: a bootstrap that completes (`validateaddress` answered without error
and with a truthy `isvalid`, the probe answered with `(pErr, pRes)`, in either
order) leaves `options.hasSubmitMethod` equal to `false` exactly when `pErr`
is truthy and `pErr.message === 'Method not found'`, and equal to `true` for
every other answer.  In every state with that flag, a share with the block
payload `blockHex` issues `submitblock` with `[blockHex]` when the flag is
`true`, and `getblocktemplate` with `[{mode: 'submit', data: blockHex}]` when
it is `false`. -/
theorem capability_flag_selects_submission (util : Util) (s : Pool) (hwf : WF s)
    (vErr vRes isvalid pErr pRes shareData blockHex : JSVal)
    (hv : vErr.truthy = false) (hres : getProp vRes "isvalid" = .ok isvalid)
    (hvalid : isvalid.truthy = true)
    (hsd : shareData.nullish = false) (hbh : blockHex.truthy = true) :
    ∃ t,
      run util s [.daemonOnline, .daemonReply s.nextId vErr vRes,
                  .daemonReply (s.nextId + 1) pErr pRes] = .ok t ∧
      run util s [.daemonOnline, .daemonReply (s.nextId + 1) pErr pRes,
                  .daemonReply s.nextId vErr vRes] = .ok t ∧
      t.options.hasSubmitMethod = .bool (!methodNotFound pErr) ∧
      (methodNotFound pErr = true ↔
        (pErr.truthy = true ∧
          ∃ message, getProp pErr "message" = .ok message ∧
            message.strictEq (.str "Method not found") = true)) ∧
      ∀ u : Pool, u.options.hasSubmitMethod = t.options.hasSubmitMethod →
        ∃ error, getProp shareData "error" = .ok error ∧
          step util u (.jobShare shareData blockHex) =
            .ok { u with
                  trace := u.trace ++
                    [.cmd u.nextId
                      (if methodNotFound pErr then "getblocktemplate" else "submitblock")
                      (if methodNotFound pErr
                       then [objLit [("mode", .str "submit"), ("data", blockHex)]]
                       else [blockHex])]
                  pending := u.pending ++
                    [(u.nextId, .submitBlockCb (!methodNotFound pErr) shareData (!error.truthy))]
                  nextId := u.nextId + 1 } := by
  obtain ⟨key, hkey⟩ := deriveKey_ok util s.options.reward vRes isvalid hres
  obtain ⟨h1, h2, h3, h4⟩ := bootstrap_success util s hwf vErr vRes isvalid pErr pRes key hv hres
    hvalid hkey
  obtain ⟨hopt, -, -, -, -⟩ := bootstrapped_fields s vRes (!methodNotFound pErr) key
  have hflag : (bootstrapped s vRes (!methodNotFound pErr) key).options.hasSubmitMethod =
      .bool (!methodNotFound pErr) := by rw [hopt]
  refine ⟨bootstrapped s vRes (!methodNotFound pErr) key, ?_, ?_, hflag,
    methodNotFound_iff pErr, ?_⟩
  · rw [run_cons_ok _ _ _ _ _ (step_online util s), run_cons_ok _ _ _ _ _ h1,
      run_cons_ok _ _ _ _ _ h2, run_nil]
  · rw [run_cons_ok _ _ _ _ _ (step_online util s), run_cons_ok _ _ _ _ _ h3,
      run_cons_ok _ _ _ _ _ h4, run_nil]
  · intro u hu
    obtain ⟨error, herr⟩ := getProp_ok_of_not_nullish shareData "error" hsd
    refine ⟨error, herr, ?_⟩
    rw [hflag] at hu
    have ht : (JSVal.bool true).truthy = true := rfl
    have hf : (JSVal.bool false).truthy = false := rfl
    cases hm : methodNotFound pErr <;>
      simp only [hm, Bool.not_false, Bool.not_true] at hu <;>
      simp [step, onShare, herr, hbh, SubmitBlock, daemonCmd, hu, ht, hf]

theorem capability_flag_selects_submission_witness :
    WF examplePool ∧ JSVal.null.truthy = false ∧
    getProp exampleAddressInfo "isvalid" = .ok (.bool true) ∧ (JSVal.bool true).truthy = true ∧
    exampleShare.nullish = false ∧ (JSVal.str "00").truthy = true ∧
    ∃ t,
      run exampleUtil examplePool [.daemonOnline,
          .daemonReply examplePool.nextId .null exampleAddressInfo,
          .daemonReply (examplePool.nextId + 1) exampleMethodNotFound .undefined] = .ok t ∧
      run exampleUtil examplePool [.daemonOnline,
          .daemonReply (examplePool.nextId + 1) exampleMethodNotFound .undefined,
          .daemonReply examplePool.nextId .null exampleAddressInfo] = .ok t ∧
      t.options.hasSubmitMethod = .bool (!methodNotFound exampleMethodNotFound) ∧
      (methodNotFound exampleMethodNotFound = true ↔
        (exampleMethodNotFound.truthy = true ∧
          ∃ message, getProp exampleMethodNotFound "message" = .ok message ∧
            message.strictEq (.str "Method not found") = true)) ∧
      ∀ u : Pool, u.options.hasSubmitMethod = t.options.hasSubmitMethod →
        ∃ error, getProp exampleShare "error" = .ok error ∧
          step exampleUtil u (.jobShare exampleShare (.str "00")) =
            .ok { u with
                  trace := u.trace ++
                    [.cmd u.nextId
                      (if methodNotFound exampleMethodNotFound then "getblocktemplate"
                       else "submitblock")
                      (if methodNotFound exampleMethodNotFound
                       then [objLit [("mode", .str "submit"), ("data", .str "00")]]
                       else [.str "00"])]
                  pending := u.pending ++
                    [(u.nextId, .submitBlockCb (!methodNotFound exampleMethodNotFound)
                        exampleShare (!error.truthy))]
                  nextId := u.nextId + 1 } :=
  ⟨WF_init _ _, rfl, rfl, rfl, rfl, rfl,
    capability_flag_selects_submission exampleUtil examplePool (WF_init _ _) .null
      exampleAddressInfo (.bool true) exampleMethodNotFound .undefined exampleShare (.str "00")
      rfl rfl rfl rfl rfl⟩

theorem isNewServer_validateFailLog (error : JSVal) :
    isNewServer (validateFailLog error) = false := rfl

/-- A failed bootstrap leaves no join open and nothing started. -/
theorem bootstrapFailed_closed (s : Pool) (error : JSVal) (join : Join)
    (waiting : List (Nat × Cont)) (hfin : join.finished = true) :
    openJoins (bootstrapFailed s error join waiting) = openJoins s ∧
    started (bootstrapFailed s error join waiting) = started s ∧
    serversCreated (bootstrapFailed s error join waiting) = serversCreated s ∧
    (bootstrapFailed s error join waiting).trace =
      s.trace ++ [.cmd s.nextId "validateaddress" [s.options.address],
                  .cmd (s.nextId + 1) "submitblock" [],
                  validateFailLog error] := by
  refine ⟨?_, ?_, ?_, ?_⟩
  · simp [bootstrapFailed, openJoins, onOnline_eq, List.countP_cons, Join.isOpen, hfin]
  · simp [bootstrapFailed, started, onOnline_eq]
  · simp only [bootstrapFailed, serversCreated, onOnline_eq, List.countP_append,
      List.countP_cons, List.countP_nil, isNewServer_validateFailLog]
    simp [isNewServer]
  · simp [bootstrapFailed, onOnline_eq]

/-- C5: after the `online` signal nothing is started while a probe is still
unanswered: not after the signal itself, not after the answer to the probe
alone, not after a successful answer to `validateaddress` alone; once both
are answered, `validateaddress` successfully, the server is created and the
polling is set up.  When `validateaddress` is answered with an error, or with
a result whose `isvalid` is falsy, before or after the probe has been
answered, the error is logged, and in every later state reached without a
further `online` signal the stratum server, the installed intervals, the
options (with the capability flag) and the public key buffer are those from
before the signal and no server has been created. -/
theorem failed_validation_never_starts (util : Util) (s : Pool) (hwf : WF s)
    (hinv : JoinInv s) (hopen : openJoins s = 0) (vErr vRes pErr pRes : JSVal)
    (hfail : vErr.truthy = true ∨
      ∃ isvalid, getProp vRes "isvalid" = .ok isvalid ∧ isvalid.truthy = false)
    (evs : List Event) (hno : evs.countP isOnline = 0) :
    (started (onOnline s) = started s ∧ serversCreated (onOnline s) = serversCreated s) ∧
    (∃ u, step util (onOnline s) (.daemonReply (s.nextId + 1) pErr pRes) = .ok u ∧
      started u = started s ∧ serversCreated u = serversCreated s) ∧
    (∀ okErr okRes isvalid, okErr.truthy = false → getProp okRes "isvalid" = .ok isvalid →
      isvalid.truthy = true →
      (∃ u, step util (onOnline s) (.daemonReply s.nextId okErr okRes) = .ok u ∧
        started u = started s ∧ serversCreated u = serversCreated s) ∧
      (∃ t, run util s [.daemonOnline, .daemonReply s.nextId okErr okRes,
                        .daemonReply (s.nextId + 1) pErr pRes] = .ok t ∧
        run util s [.daemonOnline, .daemonReply (s.nextId + 1) pErr pRes,
                    .daemonReply s.nextId okErr okRes] = .ok t ∧
        serversCreated t = serversCreated s + 1 ∧
        t.stratumServer = some (match s.stratumServer with | none => 0 | some k => k + 1) ∧
        t.intervals =
          (if s.options.blockRefreshInterval = 0 then s.intervals
           else s.intervals ++ [s.options.blockRefreshInterval * 1000]))) ∧
    (∃ u, run util s [.daemonOnline, .daemonReply s.nextId vErr vRes] = .ok u ∧
      u.trace = s.trace ++ [.cmd s.nextId "validateaddress" [s.options.address],
                            .cmd (s.nextId + 1) "submitblock" [],
                            validateFailLog vErr] ∧
      ∀ t, run util u evs = .ok t →
        started t = started s ∧ serversCreated t = serversCreated s) ∧
    (∃ u, run util s [.daemonOnline, .daemonReply (s.nextId + 1) pErr pRes,
                      .daemonReply s.nextId vErr vRes] = .ok u ∧
      u.trace = s.trace ++ [.cmd s.nextId "validateaddress" [s.options.address],
                            .cmd (s.nextId + 1) "submitblock" [],
                            validateFailLog vErr] ∧
      ∀ t, run util u evs = .ok t →
        started t = started s ∧ serversCreated t = serversCreated s) := by
  have hon := onOnline_progress s hinv
  have hsc0 : serversCreated (onOnline s) = serversCreated s := by
    simp [onOnline_eq, serversCreated, List.countP_cons, isNewServer]
  have hst0 : started (onOnline s) = started s := by
    simp [onOnline_eq, started]
  obtain ⟨hf1, hf2⟩ := bootstrap_failure util s hwf vErr vRes (!methodNotFound pErr) hfail
  have hprobe : step util (onOnline s) (.daemonReply (s.nextId + 1) pErr pRes) =
      .ok (awaitingAddress s (!methodNotFound pErr)) := by
    have hlt1 : ∀ p ∈ s.pending, p.1 < s.nextId + 1 :=
      fun p hp => Nat.lt_succ_of_lt (hwf p hp)
    simp only [step, onReply, onOnline_eq, awaitingAddress, lookup_append_of_lt _ _ _ hlt1,
      filter_append_of_lt _ _ _ hlt1, submitMethodCb_eq]
    simp [List.lookup, List.filter, parallelTaskDone, null_truthy,
      succ_bne_self, self_bne_succ, succ_beq_self, self_beq_succ]
  refine ⟨⟨hst0, hsc0⟩, ⟨_, hprobe, ?_, ?_⟩, ?_, ?_, ?_⟩
  · simp [awaitingAddress, started, onOnline_eq]
  · simp [awaitingAddress, serversCreated, onOnline_eq, List.countP_cons, isNewServer]
  · intro okErr okRes isvalid hv hres hvalid
    obtain ⟨key, hkey⟩ := deriveKey_ok util s.options.reward okRes isvalid hres
    obtain ⟨h1, h2, h3, h4⟩ := bootstrap_success util s hwf okErr okRes isvalid pErr pRes key hv
      hres hvalid hkey
    obtain ⟨-, -, hsrv, hiv, hsc⟩ := bootstrapped_fields s okRes (!methodNotFound pErr) key
    refine ⟨⟨_, h1, ?_, ?_⟩, ⟨_, ?_, ?_, hsc, hsrv, hiv⟩⟩
    · simp [awaitingProbe, started, onOnline_eq]
    · simp [awaitingProbe, serversCreated, onOnline_eq, List.countP_cons, isNewServer]
    · rw [run_cons_ok _ _ _ _ _ (step_online util s), run_cons_ok _ _ _ _ _ h1,
        run_cons_ok _ _ _ _ _ h2, run_nil]
    · rw [run_cons_ok _ _ _ _ _ (step_online util s), run_cons_ok _ _ _ _ _ h3,
        run_cons_ok _ _ _ _ _ h4, run_nil]
  · obtain ⟨ho, hs, hc, htr⟩ := bootstrapFailed_closed s vErr
      { addressInfo := .undefined, submitMethod := .undefined, completed := 0, finished := true }
      [(s.nextId + 1, .submitMethodCb s.joins.length)] rfl
    refine ⟨_, ?_, htr, ?_⟩
    · rw [run_cons_ok _ _ _ _ _ (step_online util s), run_cons_ok _ _ _ _ _ hf1, run_nil]
    · intro t ht
      have hinv1 := (step_progress util _ _ _ hon.inv hf1).inv
      obtain ⟨e1, e2⟩ := closed_stays_closed util evs _ t hinv1 (by rw [ho, hopen]) hno ht
      exact ⟨by rw [e1, hs], by rw [e2, hc]⟩
  · obtain ⟨ho, hs, hc, htr⟩ := bootstrapFailed_closed s vErr
      { addressInfo := .undefined, submitMethod := .bool (!methodNotFound pErr), completed := 1,
        finished := true }
      [] rfl
    refine ⟨_, ?_, htr, ?_⟩
    · rw [run_cons_ok _ _ _ _ _ (step_online util s), run_cons_ok _ _ _ _ _ hprobe,
        run_cons_ok _ _ _ _ _ hf2, run_nil]
    · intro t ht
      have hinv1 := (step_progress util _ _ _ hon.inv hprobe).inv
      have hinv2 := (step_progress util _ _ _ hinv1 hf2).inv
      obtain ⟨e1, e2⟩ := closed_stays_closed util evs _ t hinv2 (by rw [ho, hopen]) hno ht
      exact ⟨by rw [e1, hs], by rw [e2, hc]⟩

/-- C7, the claim as stated fails: a second `online` signal whose probes
succeed runs the completion path a second time; two stratum servers are
created and two polling timers are installed. -/
theorem second_online_runs_completion_again :
    ∃ t, run exampleUtil examplePool
        [.daemonOnline, .daemonReply 0 .null exampleAddressInfo, .daemonReply 1 .null .undefined,
         .daemonOnline, .daemonReply 2 .null exampleAddressInfo, .daemonReply 3 .null .undefined]
        = .ok t ∧
      serversCreated t = 2 ∧ t.intervals = [1000, 1000] ∧ t.stratumServer = some 1 :=
  ⟨_, rfl, rfl, rfl, rfl⟩

/-- C7, amended: the completion path of the bootstrap runs at most once for
each `online` signal.  In every state a fresh pool reaches, the number of
stratum servers created is at most the number of `online` signals handled
and the number of polling timers installed is at most the number of servers
created; and between two states of a run in which no server has been created
the options (with the capability flag), the public key buffer, the stratum
server and the timers are unchanged. -/
theorem completion_at_most_once_per_online (util : Util) (options : Options)
    (extraNonce2Size : JSVal) (evs1 evs2 : List Event) (s1 s2 : Pool)
    (h1 : run util (Pool.init options extraNonce2Size) evs1 = .ok s1)
    (h2 : run util s1 evs2 = .ok s2) :
    serversCreated s2 ≤ (evs1 ++ evs2).countP isOnline ∧
    s2.intervals.length ≤ serversCreated s2 ∧
    serversCreated s1 ≤ serversCreated s2 ∧
    (serversCreated s2 = serversCreated s1 → started s2 = started s1) := by
  have hP1 := run_progress util evs1 _ s1 (JoinInv_init options extraNonce2Size) h1
  have hP2 := run_progress util evs2 s1 s2 hP1.inv h2
  have hP := hP1.trans hP2
  have e1 : serversCreated (Pool.init options extraNonce2Size) = 0 := rfl
  have e2 : openJoins (Pool.init options extraNonce2Size) = 0 := rfl
  have e3 : (Pool.init options extraNonce2Size).intervals.length = 0 := rfl
  have hpot := hP.potential
  have htim := hP.timers
  rw [List.countP_append]
  refine ⟨by omega, by omega, hP2.mono, hP2.quiet⟩

theorem completion_at_most_once_per_online_witness :
    ∃ s1 s2,
      run exampleUtil (Pool.init exampleOptions (.num 4)) exampleBootstrap = .ok s1 ∧
      run exampleUtil s1 exampleLater = .ok s2 ∧
      serversCreated s2 ≤ (exampleBootstrap ++ exampleLater).countP isOnline ∧
      s2.intervals.length ≤ serversCreated s2 ∧
      serversCreated s1 ≤ serversCreated s2 ∧
      (serversCreated s2 = serversCreated s1 → started s2 = started s1) :=
  ⟨_, _, rfl, rfl,
    completion_at_most_once_per_online exampleUtil exampleOptions (.num 4) exampleBootstrap
      exampleLater _ _ rfl rfl⟩

theorem JoinInv_of_nil (s : Pool) (hp : s.pending = []) (hj : s.joins = []) : JoinInv s := by
  intro j
  simp [completedOf, waitingFor, hp, hj]

theorem failed_validation_never_starts_witness :
    WF examplePool ∧ JoinInv examplePool ∧ openJoins examplePool = 0 ∧
    (JSVal.null.truthy = true ∨
      ∃ isvalid, getProp (.obj 9 [("isvalid", .bool false)]) "isvalid" = .ok isvalid ∧
        isvalid.truthy = false) ∧
    List.countP isOnline
      [Event.daemonReply 1 .null .undefined, Event.jobShare exampleShare (.str ""),
       Event.daemonStartFailed] = 0 ∧
    ((started (onOnline examplePool) = started examplePool ∧
      serversCreated (onOnline examplePool) = serversCreated examplePool) ∧
    (∃ u, step exampleUtil (onOnline examplePool)
        (.daemonReply (examplePool.nextId + 1) .null .undefined) = .ok u ∧
      started u = started examplePool ∧ serversCreated u = serversCreated examplePool) ∧
    (∀ okErr okRes isvalid, okErr.truthy = false → getProp okRes "isvalid" = .ok isvalid →
      isvalid.truthy = true →
      (∃ u, step exampleUtil (onOnline examplePool)
          (.daemonReply examplePool.nextId okErr okRes) = .ok u ∧
        started u = started examplePool ∧ serversCreated u = serversCreated examplePool) ∧
      (∃ t, run exampleUtil examplePool
            [.daemonOnline, .daemonReply examplePool.nextId okErr okRes,
             .daemonReply (examplePool.nextId + 1) .null .undefined] = .ok t ∧
        run exampleUtil examplePool
            [.daemonOnline, .daemonReply (examplePool.nextId + 1) .null .undefined,
             .daemonReply examplePool.nextId okErr okRes] = .ok t ∧
        serversCreated t = serversCreated examplePool + 1 ∧
        t.stratumServer =
          some (match examplePool.stratumServer with | none => 0 | some k => k + 1) ∧
        t.intervals =
          (if examplePool.options.blockRefreshInterval = 0 then examplePool.intervals
           else examplePool.intervals ++ [examplePool.options.blockRefreshInterval * 1000]))) ∧
    (∃ u, run exampleUtil examplePool
        [.daemonOnline,
         .daemonReply examplePool.nextId .null (.obj 9 [("isvalid", .bool false)])] = .ok u ∧
      u.trace = examplePool.trace ++
        [.cmd examplePool.nextId "validateaddress" [examplePool.options.address],
         .cmd (examplePool.nextId + 1) "submitblock" [],
         validateFailLog .null] ∧
      ∀ t, run exampleUtil u
          [.daemonReply 1 .null .undefined, .jobShare exampleShare (.str ""),
           .daemonStartFailed] = .ok t →
        started t = started examplePool ∧ serversCreated t = serversCreated examplePool) ∧
    (∃ u, run exampleUtil examplePool
        [.daemonOnline, .daemonReply (examplePool.nextId + 1) .null .undefined,
         .daemonReply examplePool.nextId .null (.obj 9 [("isvalid", .bool false)])] = .ok u ∧
      u.trace = examplePool.trace ++
        [.cmd examplePool.nextId "validateaddress" [examplePool.options.address],
         .cmd (examplePool.nextId + 1) "submitblock" [],
         validateFailLog .null] ∧
      ∀ t, run exampleUtil u
          [.daemonReply 1 .null .undefined, .jobShare exampleShare (.str ""),
           .daemonStartFailed] = .ok t →
        started t = started examplePool ∧ serversCreated t = serversCreated examplePool)) :=
  ⟨WF_init _ _, JoinInv_of_nil _ rfl rfl, rfl, Or.inr ⟨_, rfl, rfl⟩, rfl,
    failed_validation_never_starts exampleUtil examplePool (WF_init _ _)
      (JoinInv_of_nil _ rfl rfl) rfl .null (.obj 9 [("isvalid", .bool false)]) .null .undefined
      (Or.inr ⟨_, rfl, rfl⟩)
      [.daemonReply 1 .null .undefined, .jobShare exampleShare (.str ""), .daemonStartFailed]
      rfl⟩


/-! ## Well-formedness is invariant -/

theorem WF_congr {s t : Pool} (h : WF s) (hp : t.pending = s.pending)
    (hn : t.nextId = s.nextId) : WF t := by
  intro p hp1
  rw [hp] at hp1
  rw [hn]
  exact h p hp1

theorem WF_daemonCmd (s : Pool) (h : WF s) (method : String) (params : List JSVal) (k : Cont) :
    WF (daemonCmd s method params k) := by
  intro p hp
  simp only [daemonCmd, List.mem_append, List.mem_singleton] at hp
  show p.1 < s.nextId + 1
  rcases hp with hp | hp
  · exact Nat.lt_succ_of_lt (h p hp)
  · rw [hp]
    exact Nat.lt_succ_self _

theorem WF_filter (s : Pool) (h : WF s) (id : Nat) :
    WF { s with pending := s.pending.filter (fun p => p.1 != id) } := by
  intro p hp
  exact h p (List.mem_filter.mp hp).1

theorem bootstrapDone_frame (util : Util) (s t : Pool) (err : JSVal) (results : Join)
    (h : bootstrapDone util s err results = .ok t) :
    t.pending = s.pending ∧ t.nextId = s.nextId := by
  unfold bootstrapDone at h
  cases he : err.truthy
  · simp only [he, Bool.false_eq_true, if_false] at h
    cases hk : deriveKey util s.options.reward results.addressInfo with
    | error e => simp [emitLog, hk] at h
    | ok key =>
      simp only [emitLog, hk, Except.ok.injEq] at h
      subst h
      unfold SetupBlockPolling StartStratumServer emitLog
      split <;> exact ⟨rfl, rfl⟩
  · simp only [he, if_true, Except.ok.injEq] at h
    subst h
    exact ⟨rfl, rfl⟩

theorem parallelTaskDone_frame (util : Util) (s t : Pool) (j : Nat) (store : Join → Join)
    (err : JSVal) (h : parallelTaskDone util s j store err = .ok t) :
    t.pending = s.pending ∧ t.nextId = s.nextId := by
  unfold parallelTaskDone at h
  cases hj : s.joins[j]? with
  | none =>
    simp only [hj, Except.ok.injEq] at h
    subst h
    exact ⟨rfl, rfl⟩
  | some join =>
    simp only [hj] at h
    split at h
    · split at h
      · cases h
        exact ⟨rfl, rfl⟩
      · have hb := bootstrapDone_frame util _ t _ _ h
        exact hb
    · split at h
      · split at h
        · cases h
          exact ⟨rfl, rfl⟩
        · have hb := bootstrapDone_frame util _ t _ _ h
          exact hb
      · cases h
        exact ⟨rfl, rfl⟩

/-- Every handler run keeps the pending callbacks below the next identifier. -/
theorem step_WF (util : Util) (s t : Pool) (e : Event) (hwf : WF s)
    (h : step util s e = .ok t) : WF t := by
  cases e with
  | jobNewBlock blockTemplate =>
    simp only [step, Except.ok.injEq] at h
    subst h
    unfold onNewBlock
    split <;> exact WF_congr hwf rfl rfl
  | jobShare shareData blockHex =>
    simp only [step, onShare] at h
    split at h
    · cases h
    · split at h
      · cases h
        exact WF_congr hwf rfl rfl
      · cases h
        rw [SubmitBlock_eq]
        exact WF_daemonCmd s hwf _ _ _
  | jobCurrent job =>
    simp only [step, Except.ok.injEq] at h
    subst h
    exact WF_congr hwf rfl rfl
  | daemonOnline =>
    simp only [step, Except.ok.injEq] at h
    subst h
    unfold onOnline
    apply WF_daemonCmd
    apply WF_daemonCmd
    exact WF_congr hwf rfl rfl
  | daemonStartFailed =>
    simp only [step, Except.ok.injEq] at h
    subst h
    exact WF_congr hwf rfl rfl
  | daemonError message =>
    simp only [step, Except.ok.injEq] at h
    subst h
    exact WF_congr hwf rfl rfl
  | daemonReply id error result =>
    simp only [step, onReply] at h
    cases hl : s.pending.lookup id with
    | none =>
      rw [hl] at h
      cases h
      exact hwf
    | some cb =>
      rw [hl] at h
      have hwf1 := WF_filter s hwf id
      cases cb with
      | submitBlockCb direct shareData v =>
        simp only at h
        cases hs : getProp shareData "solution" with
        | error e => simp [submitBlockCb, hs] at h
        | ok solution =>
          rw [submitBlockCb_eq _ _ _ _ _ _ _ hs] at h
          cases h
          unfold CheckBlockAccepted
          apply WF_daemonCmd
          exact WF_congr hwf1 rfl rfl
      | checkBlockAcceptedCb blockHash shareData v =>
        simp only at h
        unfold checkBlockAcceptedCb at h
        split at h
        · cases h
          exact WF_congr hwf1 rfl rfl
        · split at h
          · cases h
          · split at h <;> cases h <;> exact WF_congr hwf1 rfl rfl
      | validateAddressCb j =>
        simp only at h
        unfold validateAddressCb at h
        split at h
        · obtain ⟨hp, hn⟩ := parallelTaskDone_frame util _ t _ _ _ h
          exact WF_congr hwf1 hp hn
        · split at h
          · cases h
          · split at h
            · obtain ⟨hp, hn⟩ := parallelTaskDone_frame util _ t _ _ _ h
              exact WF_congr hwf1 hp hn
            · obtain ⟨hp, hn⟩ := parallelTaskDone_frame util _ t _ _ _ h
              exact WF_congr hwf1 hp hn
      | submitMethodCb j =>
        simp only at h
        rw [submitMethodCb_eq] at h
        obtain ⟨hp, hn⟩ := parallelTaskDone_frame util _ t _ _ _ h
        exact WF_congr hwf1 hp hn
      | getBlockTemplateCb viaNotify =>
        simp only [Except.ok.injEq] at h
        subst h
        unfold getBlockTemplateCb
        split
        · split <;> exact WF_congr hwf1 rfl rfl
        · exact WF_congr hwf1 rfl rfl
  | timerTick i =>
    simp only [step] at h
    split at h
    · cases h
      unfold GetBlockTemplate
      exact WF_daemonCmd s hwf _ _ _
    · cases h
      exact hwf
  | clientSubscription client params =>
    simp only [step] at h
    split at h
    · cases h
      exact hwf
    · cases h
      cases hcj : s.jobManager.currentJob with
      | some job =>
        simp only [onSubscription, hcj]
        exact WF_congr hwf rfl rfl
      | none =>
        simp only [onSubscription, hcj]
        exact WF_congr hwf rfl rfl
  | clientSubmit client params outcome =>
    simp only [step] at h
    split at h
    · cases h
      exact hwf
    · unfold onSubmit at h
      split at h
      · cases h
      · split at h
        · cases h
          exact WF_congr hwf rfl rfl
        · cases h
        · cases h
  | blockNotify blockHash =>
    simp only [step, processBlockNotify] at h
    split at h
    · cases h
    · split at h
      · cases h
      · split at h
        · cases h
          unfold GetBlockTemplate
          exact WF_daemonCmd s hwf _ _ _
        · cases h
          exact hwf

/-- Every state a pool reaches is well formed and satisfies the join
invariant. -/
theorem reachable_WF (util : Util) (options : Options) (extraNonce2Size : JSVal)
    (evs : List Event) (t : Pool)
    (h : run util (Pool.init options extraNonce2Size) evs = .ok t) : WF t ∧ JoinInv t := by
  refine ⟨?_, (run_progress util evs _ t (JoinInv_init options extraNonce2Size) h).inv⟩
  have key : ∀ (evs : List Event) (s : Pool), WF s → run util s evs = .ok t → WF t := by
    intro evs
    induction evs with
    | nil =>
      intro s hs hr
      simp only [run, Except.ok.injEq] at hr
      subst hr
      exact hs
    | cons e es ih =>
      intro s hs hr
      simp only [run] at hr
      cases hst : step util s e with
      | error err => simp [hst] at hr
      | ok u =>
        rw [hst] at hr
        exact ih u (step_WF util s u e hs hst) hr
  exact key evs _ (WF_init options extraNonce2Size) h


/-! ## Callbacks wait through other handler runs -/

theorem run_WF (util : Util) (evs : List Event) (s t : Pool) (hwf : WF s)
    (h : run util s evs = .ok t) : WF t := by
  induction evs generalizing s with
  | nil =>
    simp only [run, Except.ok.injEq] at h
    subst h
    exact hwf
  | cons e es ih =>
    simp only [run] at h
    cases hst : step util s e with
    | error err => simp [hst] at h
    | ok u =>
      rw [hst] at h
      exact ih u (step_WF util s u e hwf hst) h

theorem lookup_append_some (l r : List (Nat × Cont)) (id : Nat) (cb : Cont)
    (h : l.lookup id = some cb) : (l ++ r).lookup id = some cb := by
  induction l with
  | nil => simp [List.lookup] at h
  | cons a l ih =>
    obtain ⟨k, v⟩ := a
    by_cases hk : id = k
    · subst hk
      simp only [List.lookup, beq_self_eq_true] at h
      simp only [List.cons_append, List.lookup, beq_self_eq_true]
      exact h
    · have hne : (id == k) = false := by simpa using hk
      simp only [List.lookup, hne] at h
      simp only [List.cons_append, List.lookup, hne]
      exact ih h

theorem lookup_filter_ne (l : List (Nat × Cont)) (id other : Nat) (hne : other ≠ id) :
    (l.filter (fun p => p.1 != other)).lookup id = l.lookup id := by
  induction l with
  | nil => rfl
  | cons a l ih =>
    obtain ⟨k, v⟩ := a
    by_cases hk : k = other
    · subst hk
      have h1 : (id == k) = false := by
        simp only [beq_eq_false_iff_ne, ne_eq]
        exact fun e => hne e.symm
      simp only [List.filter, bne_self_eq_false, List.lookup, h1]
      exact ih
    · have h2 : (k != other) = true := by simpa using hk
      simp only [List.filter, h2, List.lookup]
      rw [ih]

theorem Waits.congr {id : Nat} {cb : Cont} {s t : Pool} (h : Waits id cb s)
    (hp : t.pending = s.pending) : Waits id cb t := by
  unfold Waits at *
  rw [hp]
  exact h

theorem Waits.daemonCmd {id : Nat} {cb : Cont} {s : Pool} (h : Waits id cb s)
    (method : String) (params : List JSVal) (k : Cont) :
    Waits id cb (daemonCmd s method params k) :=
  lookup_append_some s.pending _ id cb h

theorem Waits.filter {id : Nat} {cb : Cont} {s : Pool} (h : Waits id cb s) (other : Nat)
    (hne : other ≠ id) :
    Waits id cb { s with pending := s.pending.filter (fun p => p.1 != other) } := by
  unfold Waits at *
  show (s.pending.filter (fun p => p.1 != other)).lookup id = some cb
  rw [lookup_filter_ne s.pending id other hne]
  exact h

/-- A handler run that does not answer the command `id` leaves its callback
waiting. -/
theorem step_keeps_waiting (util : Util) (s t : Pool) (e : Event) (id : Nat) (cb : Cont)
    (hw : Waits id cb s) (hne : isReplyTo id e = false) (h : step util s e = .ok t) :
    Waits id cb t := by
  cases e with
  | jobNewBlock blockTemplate =>
    simp only [step, Except.ok.injEq] at h
    subst h
    unfold onNewBlock
    split <;> exact hw.congr rfl
  | jobShare shareData blockHex =>
    simp only [step, onShare] at h
    split at h
    · cases h
    · split at h
      · cases h
        exact hw.congr rfl
      · cases h
        rw [SubmitBlock_eq]
        exact hw.daemonCmd _ _ _
  | jobCurrent job =>
    simp only [step, Except.ok.injEq] at h
    subst h
    exact hw.congr rfl
  | daemonOnline =>
    simp only [step, Except.ok.injEq] at h
    subst h
    unfold onOnline
    apply Waits.daemonCmd
    apply Waits.daemonCmd
    exact hw.congr rfl
  | daemonStartFailed =>
    simp only [step, Except.ok.injEq] at h
    subst h
    exact hw.congr rfl
  | daemonError message =>
    simp only [step, Except.ok.injEq] at h
    subst h
    exact hw.congr rfl
  | daemonReply other error result =>
    have hother : other ≠ id := by
      simpa [isReplyTo] using hne
    simp only [step, onReply] at h
    cases hl : s.pending.lookup other with
    | none =>
      rw [hl] at h
      cases h
      exact hw
    | some k =>
      rw [hl] at h
      have hw1 := hw.filter other hother
      cases k with
      | submitBlockCb direct shareData v =>
        simp only at h
        cases hs : getProp shareData "solution" with
        | error e => simp [submitBlockCb, hs] at h
        | ok solution =>
          rw [submitBlockCb_eq _ _ _ _ _ _ _ hs] at h
          cases h
          unfold CheckBlockAccepted
          apply Waits.daemonCmd
          exact hw1.congr rfl
      | checkBlockAcceptedCb blockHash shareData v =>
        simp only at h
        unfold checkBlockAcceptedCb at h
        split at h
        · cases h
          exact hw1.congr rfl
        · split at h
          · cases h
          · split at h <;> cases h <;> exact hw1.congr rfl
      | validateAddressCb j =>
        simp only at h
        unfold validateAddressCb at h
        split at h
        · obtain ⟨hp, -⟩ := parallelTaskDone_frame util _ t _ _ _ h
          exact hw1.congr hp
        · split at h
          · cases h
          · split at h
            · obtain ⟨hp, -⟩ := parallelTaskDone_frame util _ t _ _ _ h
              exact hw1.congr hp
            · obtain ⟨hp, -⟩ := parallelTaskDone_frame util _ t _ _ _ h
              exact hw1.congr hp
      | submitMethodCb j =>
        simp only at h
        rw [submitMethodCb_eq] at h
        obtain ⟨hp, -⟩ := parallelTaskDone_frame util _ t _ _ _ h
        exact hw1.congr hp
      | getBlockTemplateCb viaNotify =>
        simp only [Except.ok.injEq] at h
        subst h
        unfold getBlockTemplateCb
        split
        · split <;> exact hw1.congr rfl
        · exact hw1.congr rfl
  | timerTick i =>
    simp only [step] at h
    split at h
    · cases h
      unfold GetBlockTemplate
      exact hw.daemonCmd _ _ _
    · cases h
      exact hw
  | clientSubscription client params =>
    simp only [step] at h
    split at h
    · cases h
      exact hw
    · cases h
      cases hcj : s.jobManager.currentJob with
      | some job =>
        simp only [onSubscription, hcj]
        exact hw.congr rfl
      | none =>
        simp only [onSubscription, hcj]
        exact hw.congr rfl
  | clientSubmit client params outcome =>
    simp only [step] at h
    split at h
    · cases h
      exact hw
    · unfold onSubmit at h
      split at h
      · cases h
      · split at h
        · cases h
          exact hw.congr rfl
        · cases h
        · cases h
  | blockNotify blockHash =>
    simp only [step, processBlockNotify] at h
    split at h
    · cases h
    · split at h
      · cases h
      · split at h
        · cases h
          unfold GetBlockTemplate
          exact hw.daemonCmd _ _ _
        · cases h
          exact hw

/-- Handler runs none of which answers the command `id` leave its callback
waiting. -/
theorem run_keeps_waiting (util : Util) (evs : List Event) (s t : Pool) (id : Nat) (cb : Cont)
    (hw : Waits id cb s) (hne : evs.countP (isReplyTo id) = 0) (h : run util s evs = .ok t) :
    Waits id cb t := by
  induction evs generalizing s with
  | nil =>
    simp only [run, Except.ok.injEq] at h
    subst h
    exact hw
  | cons e es ih =>
    simp only [run] at h
    rw [List.countP_cons] at hne
    have he : isReplyTo id e = false := by
      cases hq : isReplyTo id e
      · rfl
      · simp [hq] at hne
    have hes : es.countP (isReplyTo id) = 0 := by omega
    cases hst : step util s e with
    | error err => simp [hst] at h
    | ok u =>
      rw [hst] at h
      exact ih u (step_keeps_waiting util s u e id cb hw he hst) hes h

/-- The answer to a waiting submission: the log line and the `getblock`
command. -/
theorem answer_submission (util : Util) (s : Pool) (hwf : WF s) (id : Nat) (direct v : Bool)
    (shareData solution subErr subRes : JSVal)
    (hw : Waits id (.submitBlockCb direct shareData v) s)
    (hsol : getProp shareData "solution" = .ok solution) :
    ∃ t, step util s (.daemonReply id subErr subRes) = .ok t ∧
      t.trace = s.trace ++ [submitLog direct subErr, .cmd s.nextId "getblock" [solution]] ∧
      Waits s.nextId (.checkBlockAcceptedCb solution shareData v) t ∧ WF t := by
  have hstep : step util s (.daemonReply id subErr subRes) =
      .ok (CheckBlockAccepted
            { s with pending := s.pending.filter (fun p => p.1 != id)
                     trace := s.trace ++ [submitLog direct subErr] }
            solution shareData v) := by
    unfold Waits at hw
    simp only [step, onReply, hw, submitBlockCb_eq _ _ _ _ _ _ _ hsol]
  refine ⟨_, hstep, ?_, ?_, step_WF util s _ _ hwf hstep⟩
  · simp [CheckBlockAccepted, daemonCmd]
  · unfold Waits
    have hlt : ∀ p ∈ s.pending.filter (fun p => p.1 != id), p.1 < s.nextId :=
      fun p hp => hwf p (List.mem_filter.mp hp).1
    exact lookup_append_fresh _ s.nextId _ hlt

/-- The answer to a waiting `getblock`: the `share` event. -/
theorem answer_getblock (util : Util) (s : Pool) (id : Nat) (v : Bool)
    (blockHash shareData chkErr chkRes : JSVal)
    (hw : Waits id (.checkBlockAcceptedCb blockHash shareData v) s)
    (hchk : chkErr.truthy = true ∨ chkRes.nullish = false) :
    step util s (.daemonReply id chkErr chkRes) =
      .ok { s with
            pending := s.pending.filter (fun p => p.1 != id)
            trace := s.trace ++ [.share v (accepted blockHash chkErr chkRes) shareData] } := by
  unfold Waits at hw
  simp only [step, onReply, hw, checkBlockAcceptedCb_eq _ _ _ _ _ _ hchk, emitShare]

/-- With a `getblock` answer that carries neither an error nor a result the
callback throws when it reads `result.hash`, and no `share` event is emitted. -/
theorem answer_getblock_without_result (util : Util) (s : Pool) (id : Nat) (v : Bool)
    (blockHash shareData chkErr : JSVal)
    (hw : Waits id (.checkBlockAcceptedCb blockHash shareData v) s)
    (hchk : chkErr.truthy = false) :
    step util s (.daemonReply id chkErr .undefined) = .error (.typeError "hash" "undefined") := by
  unfold Waits at hw
  simp [step, onReply, hw, checkBlockAcceptedCb, hchk, getProp]

/-- The answer to a waiting template fetch: `processTemplate` with the result
and the public key buffer, or an error log. -/
theorem answer_template (util : Util) (u : Pool) (id : Nat) (viaNotify : Bool)
    (error result : JSVal) (hw : Waits id (.getBlockTemplateCb viaNotify) u) :
    step util u (.daemonReply id error result) =
      .ok (getBlockTemplateCb { u with pending := u.pending.filter (fun p => p.1 != id) }
            viaNotify error result) := by
  unfold Waits at hw
  simp only [step, onReply, hw]

/-- C6: in a state with a current job, `processBlockNotify(h)` changes nothing
(so issues no daemon command) when `h` is strictly equal to
`currentJob.rpcData.previousblockhash`; when it differs, it issues exactly one
`getblocktemplate` command with the capabilities `coinbasetxn`, `workid`,
`coinbase/append`.  When the daemon answers that command, after whatever other
handler runs `evs`, without error, the result goes to `processTemplate`
together with the public key buffer of that moment; when it answers with an
error there is an error log and no `processTemplate` call. -/
theorem notify_fetches_iff_hash_differs (util : Util) (s : Pool) (hwf : WF s) (job : Job)
    (h : JSVal) (hjob : s.jobManager.currentJob = some job)
    (hrpc : job.rpcData.nullish = false)
    (evs : List Event) (hq : evs.countP (isReplyTo s.nextId) = 0) :
    ∃ previousblockhash,
      getProp job.rpcData "previousblockhash" = .ok previousblockhash ∧
      (h.strictEq previousblockhash = true → step util s (.blockNotify h) = .ok s) ∧
      (h.strictEq previousblockhash = false →
        ∃ s1, step util s (.blockNotify h) = .ok s1 ∧
          s1 = { s with
                 trace := s.trace ++
                   [.cmd s.nextId "getblocktemplate"
                     [objLit [("capabilities",
                       .arr [.str "coinbasetxn", .str "workid", .str "coinbase/append"])]]]
                 pending := s.pending ++ [(s.nextId, .getBlockTemplateCb true)]
                 nextId := s.nextId + 1 } ∧
          ∀ u, run util s1 evs = .ok u →
            (∀ error result, error.truthy = false →
              step util u (.daemonReply s.nextId error result) =
                .ok { u with
                      pending := u.pending.filter (fun p => p.1 != s.nextId)
                      trace := u.trace ++ [.processTemplate result u.publicKeyBuffer] }) ∧
            (∀ error result, error.truthy = true →
              step util u (.daemonReply s.nextId error result) =
                .ok { u with
                      pending := u.pending.filter (fun p => p.1 != s.nextId)
                      trace := u.trace ++ [.log "error" (.str "system")
                        (.str ("Block notify error getting block template for " ++
                          u.options.name))] })) := by
  obtain ⟨prev, hprev⟩ := getProp_ok_of_not_nullish job.rpcData "previousblockhash" hrpc
  refine ⟨prev, hprev, ?_, ?_⟩
  · intro heq
    simp [step, processBlockNotify, hjob, hprev, heq]
  · intro hne
    refine ⟨GetBlockTemplate s true, ?_, ?_, ?_⟩
    · simp [step, processBlockNotify, hjob, hprev, hne]
    · simp [GetBlockTemplate_eq, daemonCmd, templateParams]
    · intro u hu
      have hw0 : Waits s.nextId (.getBlockTemplateCb true) (GetBlockTemplate s true) :=
        lookup_append_fresh s.pending s.nextId _ hwf
      have hw := run_keeps_waiting util evs _ u _ _ hw0 hq hu
      constructor
      · intro error result he
        rw [answer_template util u s.nextId true error result hw]
        simp [getBlockTemplateCb, he]
      · intro error result he
        rw [answer_template util u s.nextId true error result hw]
        simp [getBlockTemplateCb, he, emitErrorLog]

theorem notify_fetches_iff_hash_differs_witness :
    WF examplePoolWithJob ∧ examplePoolWithJob.jobManager.currentJob = some exampleJob ∧
    exampleJob.rpcData.nullish = false ∧
    exampleInterleaved.countP (isReplyTo examplePoolWithJob.nextId) = 0 ∧
    ∃ previousblockhash,
      getProp exampleJob.rpcData "previousblockhash" = .ok previousblockhash ∧
      ((JSVal.str "00cd").strictEq previousblockhash = true →
        step exampleUtil examplePoolWithJob (.blockNotify (.str "00cd")) =
          .ok examplePoolWithJob) ∧
      ((JSVal.str "00cd").strictEq previousblockhash = false →
        ∃ s1, step exampleUtil examplePoolWithJob (.blockNotify (.str "00cd")) = .ok s1 ∧
          s1 = { examplePoolWithJob with
                 trace := examplePoolWithJob.trace ++
                   [.cmd examplePoolWithJob.nextId "getblocktemplate"
                     [objLit [("capabilities",
                       .arr [.str "coinbasetxn", .str "workid", .str "coinbase/append"])]]]
                 pending := examplePoolWithJob.pending ++
                   [(examplePoolWithJob.nextId, .getBlockTemplateCb true)]
                 nextId := examplePoolWithJob.nextId + 1 } ∧
          ∀ u, run exampleUtil s1 exampleInterleaved = .ok u →
            (∀ error result, error.truthy = false →
              step exampleUtil u (.daemonReply examplePoolWithJob.nextId error result) =
                .ok { u with
                      pending := u.pending.filter (fun p => p.1 != examplePoolWithJob.nextId)
                      trace := u.trace ++ [.processTemplate result u.publicKeyBuffer] }) ∧
            (∀ error result, error.truthy = true →
              step exampleUtil u (.daemonReply examplePoolWithJob.nextId error result) =
                .ok { u with
                      pending := u.pending.filter (fun p => p.1 != examplePoolWithJob.nextId)
                      trace := u.trace ++ [.log "error" (.str "system")
                        (.str ("Block notify error getting block template for " ++
                          u.options.name))] })) :=
  ⟨WF_of_pending_nil _ rfl, rfl, rfl, rfl,
    notify_fetches_iff_hash_differs exampleUtil examplePoolWithJob (WF_of_pending_nil _ rfl)
      exampleJob (.str "00cd") rfl rfl exampleInterleaved rfl⟩

/-- C1: for a share signal with a block payload (truthy `blockHex`), whatever
the share-validity, whatever the answer `(subErr, subRes)` to the submission
and whatever other handlers run in between (`evs1` before the answer to the
submission, `evs2` before the answer to `getblock`), the answer
`(chkErr, chkRes)` to `getblock` makes the pool emit the `share` event with
the share-validity `!shareData.error` and a block-validity that is true if and
only if `chkErr` is falsy and `chkRes.hash` is strictly equal to
`shareData.solution`. -/
theorem block_validity_iff_confirmed (util : Util) (s : Pool) (hwf : WF s)
    (shareData blockHex subErr subRes chkErr chkRes : JSVal)
    (hsd : shareData.nullish = false) (hbh : blockHex.truthy = true)
    (hchk : chkErr.truthy = true ∨ chkRes.nullish = false)
    (evs1 evs2 : List Event) (s1 s3 : Pool)
    (hq1 : evs1.countP (isReplyTo s.nextId) = 0)
    (h1 : run util s (.jobShare shareData blockHex :: evs1) = .ok s1)
    (hq2 : evs2.countP (isReplyTo s1.nextId) = 0)
    (h2 : run util s1 (.daemonReply s.nextId subErr subRes :: evs2) = .ok s3) :
    ∃ error solution isValidBlock,
      getProp shareData "error" = .ok error ∧
      getProp shareData "solution" = .ok solution ∧
      step util s3 (.daemonReply s1.nextId chkErr chkRes) =
        .ok { s3 with
              pending := s3.pending.filter (fun p => p.1 != s1.nextId)
              trace := s3.trace ++ [.share (!error.truthy) isValidBlock shareData] } ∧
      (isValidBlock = true ↔
        (chkErr.truthy = false ∧
          ∃ hash, getProp chkRes "hash" = .ok hash ∧ hash.strictEq solution = true)) := by
  obtain ⟨error, herr⟩ := getProp_ok_of_not_nullish shareData "error" hsd
  obtain ⟨solution, hsol⟩ := getProp_ok_of_not_nullish shareData "solution" hsd
  -- the share signal leaves the callback of the submission waiting
  have hshare : step util s (.jobShare shareData blockHex) =
      .ok (SubmitBlock s blockHex shareData (!error.truthy)) := by
    simp [step, onShare, herr, hbh]
  have hwa : Waits s.nextId
      (.submitBlockCb s.options.hasSubmitMethod.truthy shareData (!error.truthy))
      (SubmitBlock s blockHex shareData (!error.truthy)) := by
    rw [SubmitBlock_eq]
    exact lookup_append_fresh s.pending s.nextId _ hwf
  rw [run_cons_ok _ _ _ _ _ hshare] at h1
  have hw1 := run_keeps_waiting util evs1 _ s1 _ _ hwa hq1 h1
  have hwf1 : WF s1 := run_WF util evs1 _ s1 (step_WF util s _ _ hwf hshare) h1
  -- the answer to the submission leaves the callback of getblock waiting
  obtain ⟨t, ht, -, hwt, -⟩ := answer_submission util s1 hwf1 s.nextId _ _ shareData solution
    subErr subRes hw1 hsol
  rw [run_cons_ok _ _ _ _ _ ht] at h2
  have hw3 := run_keeps_waiting util evs2 t s3 _ _ hwt hq2 h2
  exact ⟨error, solution, accepted solution chkErr chkRes, herr, hsol,
    answer_getblock util s3 s1.nextId _ solution shareData chkErr chkRes hw3 hchk,
    accepted_iff solution chkErr chkRes⟩

theorem block_validity_iff_confirmed_witness :
    ∃ s1 s3,
      WF examplePool ∧ exampleShare.nullish = false ∧ (JSVal.str "00").truthy = true ∧
      (JSVal.null.truthy = true ∨ exampleBlock.nullish = false) ∧
      exampleInterleaved.countP (isReplyTo examplePool.nextId) = 0 ∧
      run exampleUtil examplePool (.jobShare exampleShare (.str "00") :: exampleInterleaved)
        = .ok s1 ∧
      exampleInterleaved.countP (isReplyTo s1.nextId) = 0 ∧
      run exampleUtil s1
        (.daemonReply examplePool.nextId (.str "rejected") .null :: exampleInterleaved)
        = .ok s3 ∧
      ∃ error solution isValidBlock,
        getProp exampleShare "error" = .ok error ∧
        getProp exampleShare "solution" = .ok solution ∧
        step exampleUtil s3 (.daemonReply s1.nextId .null exampleBlock) =
          .ok { s3 with
                pending := s3.pending.filter (fun p => p.1 != s1.nextId)
                trace := s3.trace ++ [.share (!error.truthy) isValidBlock exampleShare] } ∧
        (isValidBlock = true ↔
          (JSVal.null.truthy = false ∧
            ∃ hash, getProp exampleBlock "hash" = .ok hash ∧
              hash.strictEq solution = true)) :=
  ⟨_, _, WF_init _ _, rfl, rfl, Or.inr rfl, rfl, rfl, rfl, rfl,
    block_validity_iff_confirmed exampleUtil examplePool (WF_init _ _) exampleShare (.str "00")
      (.str "rejected") .null .null exampleBlock rfl rfl (Or.inr rfl)
      exampleInterleaved exampleInterleaved _ _ rfl rfl rfl rfl⟩

end StratumPool
